import Mathlib

/-!
Shallow embedding of podenv's environment-resolution core (`podenv/env.py`):
the `Env` data model and its inheritance merge (`applyParent`), the capability
catalogue and pipeline, the validator (`validateEnv`), and the argument
compiler (`ExecContext.getArgs` / `prepareEnv`).

Modelling conventions:
* Python `pathlib.Path` values are modelled as `String`; the default
  `Path()` is the string `"."` (its `str()` form), and `p1 / p2` is
  `pathJoin` (which, like `pathlib`, discards the left side when the right
  side is absolute).
* Python `dict` values are modelled as insertion-ordered association lists
  (`List (String × β)`); `d[k] = v` is `dictInsert` (replace in place when
  the key is present, append otherwise) and `d.update(e)` is `dictUpdate`.
* Host state read by the code (process environment variables, filesystem
  queries, `expanduser().resolve()`, SELinux label queries, `/dev` listing)
  is an explicit read-only `Host` snapshot threaded through the functions.
* Statements the source can `raise` are modelled with `Except String`.
* Python's `sorted` is modelled by the stable insertion sort `sortBy`.
* Python `set(...)` iteration (only used for `set(self.syscaps)`) has an
  interpreter-internal but in-process-fixed order; it is modelled as
  first-occurrence-order deduplication (`dedupFirst`).
-/

/-- Python `dict` lookup (`d.get(k)`): the binding for `k`, if any. -/
def dictGet {β : Type} : List (String × β) → String → Option β
  | [], _ => none
  | (k, v) :: t, x => if k = x then some v else dictGet t x

/-- Python `d[k] = v`: replace the value in place if the key is present,
append the binding otherwise. -/
def dictInsert {β : Type} (d : List (String × β)) (k : String) (v : β) :
    List (String × β) :=
  if d.any (fun p => p.1 = k) then
    d.map (fun p => if p.1 = k then (k, v) else p)
  else d ++ [(k, v)]

/-- Python `d.update(e)`: the assignments of `e` applied to `d` in order. -/
def dictUpdate {β : Type} (d e : List (String × β)) : List (String × β) :=
  e.foldl (fun acc p => dictInsert acc p.1 p.2) d

/-- `pathlib` `/` operator on string paths: the right side wins when it is
absolute (first character a slash, written by code so the definition
evaluates by kernel reduction). -/
def pathJoin (a b : String) : String :=
  if b.data.head? = some (Char.ofNat 47) then b else a ++ "/" ++ b

/-- Split a character list on a separator character (the `Path` component
splitter used by the `Path.name` model; structural so it evaluates). -/
def splitOnChar (sep : Char) : List Char → List (List Char)
  | [] => [[]]
  | c :: rest =>
    if c = sep then [] :: splitOnChar sep rest
    else match splitOnChar sep rest with
      | [] => [[c]]
      | h :: t => (c :: h) :: t

/-- `Path(s).name`: the final non-empty path component. -/
def baseName (s : String) : String :=
  ⟨((((splitOnChar (Char.ofNat 47) s.data)).filter (fun c => c ≠ [])).getLast?).getD []⟩

/-- `camelCaseToHyphen` from the source: `re.sub('([A-Z]+)', r'-\x5c1', name).lower()`.
(The catalogue's function names contain no runs of consecutive capitals, so
per-character translation agrees with the regex.) -/
def camelCaseToHyphen (s : String) : String :=
  ⟨s.data.flatMap (fun c => if c.isUpper then ['-', c.toLower] else [c])⟩

/-- Stable insertion of `x` into a `le`-sorted list. -/
def insertSorted {α : Type} (le : α → α → Bool) (x : α) : List α → List α
  | [] => [x]
  | y :: ys => if le x y then x :: y :: ys else y :: insertSorted le x ys

/-- Model of Python `sorted`: insertion sort by `le`. -/
def sortBy {α : Type} (le : α → α → Bool) (l : List α) : List α :=
  l.foldr (insertSorted le) []

/-- String order used by `sorted` on mount keys. -/
def strLe (a b : String) : Bool := decide (a ≤ b)

/-- Tuple order used by `sorted(environ.items())`: lexicographic on
(name, value) pairs. -/
def pairLe (a b : String × String) : Bool :=
  decide (a.1 < b.1) || (a.1 = b.1 && decide (a.2 ≤ b.2))

/-- Python `set(xs)` iteration modelled as first-occurrence order. -/
def dedupFirst : List String → List String
  | [] => []
  | x :: xs => x :: (dedupFirst xs).filter (fun y => y ≠ x)

/-- Read-only snapshot of the host state the code consults. -/
structure Host where
  /-- `os.environ` (a missing key makes `os.environ[k]` raise `KeyError`). -/
  environ : String → Option String
  /-- `os.listdir("/dev")`. -/
  devices : List String
  /-- Contents of `~/.gitconfig` when it is a file, `none` otherwise. -/
  gitconfig : Option String
  /-- `Path(p).is_file()` after resolution. -/
  isFile : String → Bool
  /-- `Path(p).exists()` after resolution. -/
  pathExists : String → Bool
  /-- `os.access(p, os.R_OK)`. -/
  readable : String → Bool
  /-- SELinux type component of `selinux.getfilecon(p)[1]`. -/
  label : String → String
  /-- Whether the `selinux` Python module imported (`HAS_SELINUX`). -/
  hasSelinux : Bool
  /-- `Path(p).expanduser().resolve()` (non-strict). -/
  resolve : String → String
  /-- `Path(p).expanduser().resolve(strict=True)`; `none` models
  `FileNotFoundError`. -/
  resolveStrict : String → Option String

/-- The intermediary podman context representation (dataclass `ExecContext`).
Field defaults mirror the dataclass defaults (`Path()` is `"."`). -/
structure ExecContext where
  environ : List (String × String) := []
  mounts : List (String × String) := []
  syscaps : List String := []
  execArgs : List String := []
  home : String := "."
  cwd : String := "."
  xdgDir : String := "."
  seLinuxLabel : String := ""
  seccomp : String := ""
  networkNamespace : String := ""
deriving DecidableEq, Repr

/-- `ExecContext.hasNetwork`. -/
def hasNetwork (c : ExecContext) : Bool :=
  c.networkNamespace = "" || c.networkNamespace ≠ "none"

/-- `ExecContext.hasDirectNetwork`. -/
def hasDirectNetwork (c : ExecContext) : Bool :=
  c.networkNamespace = "" || c.networkNamespace = "host"

/-- A desktop file definition (dataclass `DesktopEntry`); only the fields,
since the claims never render one. -/
structure DesktopEntryV where
  envName : String
  relPath : String
  terminal : Bool
  name : String := ""
  icon : String := ""
deriving DecidableEq, Repr

/-- An ansible-like image task (`Task = Dict[str, ...]` in the source),
kept as a plain mapping since its entries are never inspected by the
modelled code. -/
def ImgTask : Type := List (String × String)

instance : DecidableEq ImgTask := by
  unfold ImgTask; infer_instance

instance : Repr ImgTask := by
  unfold ImgTask; infer_instance

/-- `Overlay = Union[str, Dict[str, str]]`. -/
inductive Overlay where
  | str (s : String)
  | dict (d : List (String × String))
deriving DecidableEq, Repr

/-- The user provided container representation (dataclass `Env`).
`runtime` is an opaque reference (the `Runtime` ABC holds no data the
modelled code reads). Defaults mirror the dataclass defaults. -/
structure Env where
  name : String := ""
  description : Option String := some ""
  parent : String := ""
  desktop : Option DesktopEntryV := none
  image : String := ""
  rootfs : String := ""
  dns : String := ""
  imageCustomizations : List String := []
  imageTasks : List ImgTask := []
  packages : List String := []
  command : List String := []
  args : List String := []
  environ : List (String × String) := []
  syscaps : List String := []
  mounts : List (String × String) := []
  capabilities : List (String × Bool) := []
  network : String := ""
  requires : List String := []
  overlays : List Overlay := []
  home : String := ""
  shmsize : String := ""
  ports : List String := []
  runtime : Option String := none
  ctx : ExecContext := {}
  runDir : Option String := none
  overlaysDir : Option String := none
  manageImage : Bool := true
  autoUpdate : Bool := false
  mountCache : Bool := false
  configFile : Option String := none
deriving DecidableEq, Repr

/-- `env.capabilities.get(name, False)`. -/
def capGet (caps : List (String × Bool)) (name : String) : Bool :=
  (dictGet caps name).getD false

/-- `rootCap`: run as root (always sets `home`/`xdgDir`; the environ
assignments set `XDG_RUNTIME_DIR` then `HOME`). -/
def rootCap (active : Bool) (env : Env) : Env :=
  let c := env.ctx
  let c := if active then
      { c with home := "/root", xdgDir := "/run/user/0" }
    else
      { c with home := "/home/user", xdgDir := "/run/user/1000",
               execArgs := c.execArgs ++ ["--user", "1000"] }
  let e2 := dictInsert (dictInsert c.environ "XDG_RUNTIME_DIR" c.xdgDir) "HOME" c.home
  let c := { c with environ := e2 }
  { env with ctx := c }

/-- `getUidMap`. -/
def getUidMap (_ : Env) : List String :=
  ["--uidmap", "1000:0:1", "--uidmap", "0:1:999",
   "--uidmap", "1001:1001:" ++ toString (2 ^ 16 - 1001)]

/-- `uidmapCap`: map host uid. -/
def uidmapCap (active : Bool) (env : Env) : Env :=
  if active then
    { env with ctx := { env.ctx with execArgs := env.ctx.execArgs ++ getUidMap env } }
  else env

/-- `privilegedCap`: run as privileged container. -/
def privilegedCap (active : Bool) (env : Env) : Env :=
  if active then
    { env with ctx := { env.ctx with execArgs := env.ctx.execArgs ++ ["--privileged"] } }
  else env

/-- `terminalCap`: interactive mode. -/
def terminalCap (active : Bool) (env : Env) : Env :=
  if active then
    let a2 := env.ctx.execArgs ++ ["-it"] ++ ["--detach-keys", "ctrl-e,e"]
    { env with ctx := { env.ctx with execArgs := a2 } }
  else env

/-- `networkCap`: enable network. -/
def networkCap (active : Bool) (env : Env) : Env :=
  let env := if env.network ≠ "" then
      { env with ctx := { env.ctx with networkNamespace := "container:net-" ++ env.network } }
    else env
  if ¬ active ∧ env.network = "" then
    { env with ctx := { env.ctx with networkNamespace := "none" } }
  else env

/-- `manageImageCap`: manage the image with buildah. -/
def manageImageCap (active : Bool) (env : Env) : Env :=
  { env with manageImage := active }

/-- `mountCwdCap`: mount cwd to /data (the mount's host side is `Path()`,
i.e. `"."`, resolved at render time). -/
def mountCwdCap (active : Bool) (env : Env) : Env :=
  if active then
    let c := { env.ctx with cwd := "/data" }
    { env with ctx := { c with mounts := dictInsert c.mounts c.cwd "." } }
  else env

/-- `mountRunCap`: mount home and tmp to host tmpfs; raises when `runDir`
is unset. -/
def mountRunCap (active : Bool) (env : Env) : Except String Env :=
  if active then
    match env.runDir with
    | none => .error "runDir is not set"
    | some runDir =>
      let c := env.ctx
      let c := if (dictGet c.mounts c.home).isNone ∧ env.home = "" then
          { c with mounts := dictInsert c.mounts c.home (pathJoin runDir "home") }
        else c
      let c := if (dictGet c.mounts "/tmp").isNone then
          { c with mounts := dictInsert c.mounts "/tmp" (pathJoin runDir "tmp") }
        else c
      .ok { env with ctx := c }
  else .ok env

/-- `mountCacheCap`: mount image build cache. -/
def mountCacheCap (active : Bool) (env : Env) : Env :=
  if active then { env with mountCache := true } else env

/-- `ipcCap`: share host ipc. -/
def ipcCap (active : Bool) (env : Env) : Env :=
  if active then
    { env with ctx := { env.ctx with execArgs := env.ctx.execArgs ++ ["--ipc=host"] } }
  else env

/-- `x11Cap`: share x11 socket (`os.environ["DISPLAY"]` raises when absent). -/
def x11Cap (active : Bool) (host : Host) (env : Env) : Except String Env :=
  if active then
    match host.environ "DISPLAY" with
    | none => .error "KeyError: DISPLAY"
    | some display =>
      let m2 := dictInsert env.ctx.mounts "/tmp/.X11-unix" "/tmp/.X11-unix"
      let c := { env.ctx with mounts := m2 }
      .ok { env with ctx := { c with environ := dictInsert c.environ "DISPLAY" display } }
  else .ok env

/-- `pulseaudioCap`: share pulseaudio socket. -/
def pulseaudioCap (active : Bool) (host : Host) (env : Env) : Except String Env :=
  if active then
    match host.environ "XDG_RUNTIME_DIR" with
    | none => .error "KeyError: XDG_RUNTIME_DIR"
    | some xdg =>
      let c := env.ctx
      let c := { c with mounts := dictInsert c.mounts "/etc/machine-id:ro" "/etc/machine-id" }
      let m2 := dictInsert c.mounts (pathJoin c.xdgDir "pulse") (pathJoin xdg "pulse")
      let c := { c with mounts := m2 }
      let e2 := dictInsert c.environ "PULSE_SERVER" (pathJoin (pathJoin c.xdgDir "pulse") "native")
      let c := { c with environ := e2 }
      .ok { env with ctx := c }
  else .ok env

/-- One line of the `gitCap` gitconfig scan (the body of its `for` loop);
`line.split` with no separator is approximated by splitting on spaces. -/
def gitCapLine (host : Host) (env : Env) (rawLine : String) : Except String Env :=
  let line := rawLine.trim
  if line.startsWith "excludesfile" then
    match (line.splitOn "=").get? 1 with
    | none => .error "IndexError: list index out of range"
    | some part =>
      let excludeFileName := part.trim
      let excludeFile := host.resolve excludeFileName
      if host.isFile excludeFile then
        let m2 := dictInsert env.ctx.mounts (pathJoin env.ctx.home (excludeFileName.replace "~/" "")) excludeFile
        .ok { env with ctx := { env.ctx with mounts := m2 } }
      else .ok env
  else if ((line.splitOn "store --file").length ≥ 2 : Bool) then
    match ((line.splitOn " ").filter (fun w => w ≠ "")).getLast? with
    | none => .error "IndexError: list index out of range"
    | some storeFileName =>
      let storeFile := host.resolve storeFileName
      if host.isFile storeFile then
        let m2 := dictInsert env.ctx.mounts (pathJoin env.ctx.home (storeFileName.replace "~/" "")) storeFile
        .ok { env with ctx := { env.ctx with mounts := m2 } }
      else .ok env
  else .ok env

/-- `gitCap`: share .gitconfig and excludesfile. -/
def gitCap (active : Bool) (host : Host) (env : Env) : Except String Env :=
  if active then
    let gitconfigFile := host.resolve "~/.gitconfig"
    if host.isFile gitconfigFile then
      let m2 := dictInsert env.ctx.mounts (pathJoin env.ctx.home ".gitconfig") gitconfigFile
      let env := { env with ctx := { env.ctx with mounts := m2 } }
      ((host.gitconfig.getD "").splitOn "\n").foldlM (gitCapLine host) env
    else .ok env
  else .ok env

/-- `editorCap`: setup editor env (`os.environ.get("EDITOR", "vi")`). -/
def editorCap (active : Bool) (host : Host) (env : Env) : Env :=
  if active then
    let e2 := dictInsert env.ctx.environ "EDITOR" ((host.environ "EDITOR").getD "vi")
    let env := { env with ctx := { env.ctx with environ := e2 } }
    { env with packages := env.packages ++ ["vi"] }
  else env

/-- `sshCap`: share ssh agent and keys. -/
def sshCap (active : Bool) (host : Host) (env : Env) : Except String Env :=
  if active then
    match host.environ "SSH_AUTH_SOCK" with
    | none => .error "KeyError: SSH_AUTH_SOCK"
    | some sock =>
      let c := { env.ctx with environ := dictInsert env.ctx.environ "SSH_AUTH_SOCK" sock }
      let c := { c with mounts := dictInsert c.mounts sock sock }
      let c := { c with mounts := dictInsert c.mounts (pathJoin c.home ".ssh") "~/.ssh" }
      .ok { env with ctx := c }
  else .ok env

/-- `gpgCap`: share gpg agent. -/
def gpgCap (active : Bool) (host : Host) (env : Env) : Except String Env :=
  if active then
    match host.environ "XDG_RUNTIME_DIR" with
    | none => .error "KeyError: XDG_RUNTIME_DIR"
    | some xdg =>
      let gpgSockDir := pathJoin xdg "gnupg"
      let m2 := dictInsert env.ctx.mounts (pathJoin env.ctx.xdgDir "gnupg") gpgSockDir
      let c := { env.ctx with mounts := m2 }
      let c := { c with mounts := dictInsert c.mounts (pathJoin c.home ".gnupg") "~/.gnupg" }
      .ok { env with ctx := c }
  else .ok env

/-- `webcamCap`: share webcam device. -/
def webcamCap (active : Bool) (host : Host) (env : Env) : Env :=
  if active then
    let a2 := env.ctx.execArgs ++
      (host.devices.filter (fun d => d.startsWith "video")).flatMap
        (fun d => ["--device", pathJoin "/dev" d])
    { env with ctx := { env.ctx with execArgs := a2 } }
  else env

/-- `driCap`: share graphic device. -/
def driCap (active : Bool) (env : Env) : Env :=
  if active then
    { env with ctx := { env.ctx with execArgs := env.ctx.execArgs ++ ["--device", "/dev/dri"] } }
  else env

/-- `kvmCap`: share kvm device. -/
def kvmCap (active : Bool) (env : Env) : Env :=
  if active then
    { env with ctx := { env.ctx with execArgs := env.ctx.execArgs ++ ["--device", "/dev/kvm"] } }
  else env

/-- `tunCap`: share tun device. -/
def tunCap (active : Bool) (env : Env) : Env :=
  if active then
    { env with ctx := { env.ctx with execArgs := env.ctx.execArgs ++ ["--device", "/dev/net/tun"] } }
  else env

/-- `selinuxCap`: enable SELinux (inactive sets the explicit disable label). -/
def selinuxCap (active : Bool) (env : Env) : Env :=
  if ¬ active then
    { env with ctx := { env.ctx with seLinuxLabel := "disable" } }
  else env

/-- `seccompCap`: enable seccomp (inactive sets the unconfined override). -/
def seccompCap (active : Bool) (env : Env) : Env :=
  if ¬ active then
    { env with ctx := { env.ctx with seccomp := "unconfined" } }
  else env

/-- `ptraceCap`: enable ptrace. -/
def ptraceCap (active : Bool) (env : Env) : Env :=
  if active then
    { env with ctx := { env.ctx with syscaps := env.ctx.syscaps ++ ["SYS_PTRACE"] } }
  else env

/-- `setuidCap`: enable setuid. -/
def setuidCap (active : Bool) (env : Env) : Env :=
  if active then
    { env with ctx := { env.ctx with syscaps := env.ctx.syscaps ++ ["SETUID", "SETGID"] } }
  else env

/-- `autoUpdateCap`: keep environment updated. -/
def autoUpdateCap (active : Bool) (env : Env) : Env :=
  if active then { env with autoUpdate := true } else env

/-- The capability catalogue: the `Capabilities` table of the source, in
its fixed order (name, handler); handler docstrings are omitted. Handlers
that cannot raise are wrapped into the common fallible signature. -/
def Capabilities : List (String × (Bool → Host → Env → Except String Env)) :=
  [(camelCaseToHyphen "manageImage", fun a _ e => .ok (manageImageCap a e)),
   (camelCaseToHyphen "root", fun a _ e => .ok (rootCap a e)),
   (camelCaseToHyphen "privileged", fun a _ e => .ok (privilegedCap a e)),
   (camelCaseToHyphen "terminal", fun a _ e => .ok (terminalCap a e)),
   (camelCaseToHyphen "ipc", fun a _ e => .ok (ipcCap a e)),
   (camelCaseToHyphen "x11", x11Cap),
   (camelCaseToHyphen "pulseaudio", pulseaudioCap),
   (camelCaseToHyphen "git", gitCap),
   (camelCaseToHyphen "editor", fun a h e => .ok (editorCap a h e)),
   (camelCaseToHyphen "ssh", sshCap),
   (camelCaseToHyphen "gpg", gpgCap),
   (camelCaseToHyphen "webcam", fun a h e => .ok (webcamCap a h e)),
   (camelCaseToHyphen "dri", fun a _ e => .ok (driCap a e)),
   (camelCaseToHyphen "kvm", fun a _ e => .ok (kvmCap a e)),
   (camelCaseToHyphen "tun", fun a _ e => .ok (tunCap a e)),
   (camelCaseToHyphen "seccomp", fun a _ e => .ok (seccompCap a e)),
   (camelCaseToHyphen "selinux", fun a _ e => .ok (selinuxCap a e)),
   (camelCaseToHyphen "setuid", fun a _ e => .ok (setuidCap a e)),
   (camelCaseToHyphen "ptrace", fun a _ e => .ok (ptraceCap a e)),
   (camelCaseToHyphen "network", fun a _ e => .ok (networkCap a e)),
   (camelCaseToHyphen "mountCwd", fun a _ e => .ok (mountCwdCap a e)),
   (camelCaseToHyphen "mountRun", fun a _ e => mountRunCap a e),
   (camelCaseToHyphen "mountCache", fun a _ e => .ok (mountCacheCap a e)),
   (camelCaseToHyphen "autoUpdate", fun a _ e => .ok (autoUpdateCap a e)),
   (camelCaseToHyphen "uidmap", fun a _ e => .ok (uidmapCap a e))]

/-- Apply a list of catalogue entries in order, each receiving
`env.capabilities.get(name, False)` (the loop at the top of `prepareEnv`). -/
def applyCapList (host : Host)
    (l : List (String × (Bool → Host → Env → Except String Env)))
    (env : Env) : Except String Env :=
  l.foldlM (fun e c => c.2 (capGet e.capabilities c.1) host e) env

/-- The capability pipeline: every catalogue entry exactly once, in order. -/
def applyCapabilities (host : Host) (env : Env) : Except String Env :=
  applyCapList host Capabilities env

/-- The `-v` flags of `ExecContext.getArgs`: one per mount, iterated over
`sorted(self.mounts.keys())`, host side resolved at render time. -/
def mountArgs (host : Host) (m : List (String × String)) : List String :=
  (sortBy strLe (m.map (fun p => p.1))).flatMap
    (fun k => ["-v", host.resolve ((dictGet m k).getD "") ++ ":" ++ k])

/-- The `--cap-add` flags: one per element of `set(self.syscaps)`. -/
def capAddArgs (syscaps : List String) : List String :=
  (dedupFirst syscaps).flatMap (fun s => ["--cap-add", s])

/-- The `-e` flags: one per entry of `sorted(self.environ.items())`. -/
def environArgs (e : List (String × String)) : List String :=
  (sortBy pairLe e).flatMap (fun p => ["-e", p.1 ++ "=" ++ p.2])

/-- `ExecContext.getArgs`: renders the context to podman arguments; also
returns the context because the source mutates `self.cwd` when unset. -/
def getArgs (host : Host) (c0 : ExecContext) : List String × ExecContext :=
  let args := (if c0.seLinuxLabel ≠ "" then ["--security-opt", "label=" ++ c0.seLinuxLabel] else [])
  let args := args ++ (if c0.seccomp ≠ "" then ["--security-opt", "seccomp=" ++ c0.seccomp] else [])
  let args := args ++ (if c0.networkNamespace ≠ "" then ["--network", c0.networkNamespace] else [])
  let c := if c0.cwd = "." then { c0 with cwd := c0.home } else c0
  let args := args ++ ["--workdir", c.cwd]
  let args := args ++ mountArgs host c.mounts
  let args := args ++ capAddArgs c.syscaps
  let args := args ++ environArgs c.environ
  (args ++ c.execArgs, c)

/-- Validator block `Check if SELinux will block socket access`. Warning
texts are the source messages without the surrounding quote characters. -/
def checkSelinuxSockets (p : Env × List String) : Env × List String :=
  if capGet p.1.capabilities "selinux" then
    ["x11", "tun", "pulseaudio"].foldl (fun q cap =>
      if capGet q.1.capabilities cap then
        let e := selinuxCap false q.1
        let e := { e with capabilities := dictInsert e.capabilities "selinux" false }
        (e, q.2 ++ ["SELinux is disabled because capability " ++ cap ++
          " need extra type enforcement that are not currently supported."])
      else q) p
  else p

/-- Validator block `Check for uid permissions`: the loop warns and forces
uidmap for the first matching capability, then breaks. -/
def checkUidPermissions (p : Env × List String) : Env × List String :=
  if ¬ capGet p.1.capabilities "root" ∧ ¬ capGet p.1.capabilities "uidmap" then
    match ["x11", "pulseaudio", "ssh", "gpg"].find? (fun c => capGet p.1.capabilities c) with
    | some cap =>
      (uidmapCap true p.1,
       p.2 ++ ["UIDMap is required because " ++ cap ++ " need DAC access to the host file"])
    | none => p
  else p

/-- Validator block `Check for system capabilities`. -/
def checkSysCapabilities (p : Env × List String) : Env × List String :=
  if capGet p.1.capabilities "tun" ∧ ¬ p.1.ctx.syscaps.contains "NET_ADMIN" then
    ({ p.1 with ctx := { p.1.ctx with syscaps := p.1.ctx.syscaps ++ ["NET_ADMIN"] } },
     p.2 ++ ["NET_ADMIN capability is needed by the tun device"])
  else p

/-- Validator block `Check mount points labels` (active only when the
`selinux` Python module is importable on the host). -/
def checkMountLabels (host : Host) (p : Env × List String) : Env × List String :=
  if capGet p.1.capabilities "selinux" ∧ host.hasSelinux then
    p.1.ctx.mounts.foldl (fun q m =>
      let hostPath := host.resolve m.2
      if host.pathExists hostPath ∧ host.label hostPath ≠ "container_file_t" then
        (selinuxCap false q.1,
         q.2 ++ ["SELinux is disabled because " ++ hostPath ++
           " does not have the container_file_t label. To set the label run: " ++
           "chcon -Rt container_file_t " ++ hostPath])
      else q) p
  else p

/-- Validator block `Check mount points permissions` (warn only). -/
def checkMountPermissions (host : Host) (p : Env × List String) : Env × List String :=
  (p.1, p.2 ++ p.1.ctx.mounts.filterMap (fun m =>
    let hostPath := host.resolve m.2
    if host.pathExists hostPath ∧ ¬ host.readable hostPath then
      some (hostPath ++ " is not readable by the current user.")
    else none))

/-- Validator block `Check for home mount point` (can raise through
`mountRunCap` when `runDir` is unset). -/
def checkHomeMount (p : Env × List String) : Except String (Env × List String) :=
  if p.1.overlays ≠ [] ∧ (dictGet p.1.ctx.mounts p.1.ctx.home).isNone then
    match mountRunCap true p.1 with
    | .error er => .error er
    | .ok env =>
      .ok (env, p.2 ++ ["overlay needs a home mount point, mountRun capability is enabled."])
  else .ok p

/-- Validator block `Check for image management`: both inner warnings fire
when applicable, since the outer test is only evaluated once. -/
def checkImageManagement (p : Env × List String) : Env × List String :=
  if ¬ p.1.manageImage then
    let p := if p.1.packages ≠ [] then
        (manageImageCap true p.1, p.2 ++ ["manage-image capability is required for packages"])
      else p
    if p.1.imageCustomizations ≠ [] ∨ p.1.imageTasks ≠ [] then
      (manageImageCap true p.1, p.2 ++ ["manage-image capability is required for image tasks"])
    else p
  else p

/-- `validateEnv`: sanity check and warn user about missing setting. The
returned list collects the warning messages the source prints. -/
def validateEnv (host : Host) (env : Env) : Except String (Env × List String) :=
  match checkHomeMount (checkMountPermissions host (checkMountLabels host
      (checkSysCapabilities (checkUidPermissions (checkSelinuxSockets (env, [])))))) with
  | .error er => .error er
  | .ok p => .ok (checkImageManagement p)

/-- One step of Python `str.format` parsing (used by `port.format(**environ)`):
`acc = some key` while scanning a replacement field; only plain-name fields
are modelled. Literal braces are written via character codes to keep the
model text free of brace characters. -/
def formatChars (e : List (String × String)) :
    Option (List Char) → List Char → Except String (List Char)
  | none, [] => .ok []
  | none, c :: rest =>
    if c = Char.ofNat 123 then
      match rest with
      | c2 :: rest2 =>
        if c2 = Char.ofNat 123 then (fun t => Char.ofNat 123 :: t) <$> formatChars e none rest2
        else formatChars e (some []) (c2 :: rest2)
      | [] => .error "ValueError: Single open brace encountered in format string"
    else if c = Char.ofNat 125 then
      match rest with
      | c2 :: rest2 =>
        if c2 = Char.ofNat 125 then (fun t => Char.ofNat 125 :: t) <$> formatChars e none rest2
        else .error "ValueError: Single close brace encountered in format string"
      | [] => .error "ValueError: Single close brace encountered in format string"
    else (fun t => c :: t) <$> formatChars e none rest
  | some _, [] => .error "ValueError: expected closing brace before end of string"
  | some acc, c :: rest =>
    if c = Char.ofNat 125 then
      match dictGet e (String.mk acc.reverse) with
      | none => .error ("KeyError: " ++ String.mk acc.reverse)
      | some v => (fun t => v.data ++ t) <$> formatChars e none rest
    else formatChars e (some (c :: acc)) rest

termination_by _o l => l.length

/-- `port.format(**env.environ)`. -/
def formatPort (port : String) (e : List (String × String)) : Except String String :=
  (fun l => String.mk l) <$> formatChars e none port.data

/-- Residual-field merge step of `prepareEnv`: mount the declared home
path over the context home. -/
def mergeHomeMount (host : Host) (env : Env) : Env :=
  if env.home ≠ "" then
    let m2 := dictInsert env.ctx.mounts env.ctx.home (host.resolve env.home)
    { env with ctx := { env.ctx with mounts := m2 } }
  else env

/-- Residual-field step of `prepareEnv`: one `--publish` flag per port,
each port format-interpolated against the environment's environ. -/
def portPublishArgs (env : Env) : Except String (List String) :=
  env.ports.foldlM
    (fun acc port => (fun s => acc ++ ["--publish=" ++ s]) <$> formatPort port env.environ) []

/-- Residual-field merge step of `prepareEnv`: extend context syscaps,
update context environ, and merge the declared mounts (`~/`-relative
container paths resolved against the context home). -/
def mergeResidual (host : Host) (env : Env) : Env :=
  let env := { env with ctx := { env.ctx with syscaps := env.ctx.syscaps ++ env.syscaps } }
  let env := { env with ctx := { env.ctx with environ := dictUpdate env.ctx.environ env.environ } }
  let m2 := env.mounts.foldl (fun m q =>
      if q.1.startsWith "~/" then
        dictInsert m (pathJoin env.ctx.home (q.1.drop 2)) (host.resolve q.2)
      else dictInsert m q.1 (host.resolve q.2)) env.ctx.mounts
  { env with ctx := { env.ctx with mounts := m2 } }

/-- File-argument step of `prepareEnv` (`Look for file argument
requirement`): with a `$1` token in the template, more than one CLI
argument raises, and a single one is popped, resolved strictly and mounted
at `/tmp/<basename>`. -/
def fileArgStep (host : Host) (env : Env) (cliArgs : List String) :
    Except String (Option String × List String × Env) :=
  if env.command.contains "$1" then
    if cliArgs.length > 1 then .error ("Multiple file input " ++ toString cliArgs)
    else match cliArgs.getLast? with
      | some f =>
        match host.resolveStrict f with
        | none => .error ("FileNotFoundError: " ++ f)
        | some rf =>
          let m3 := dictInsert env.ctx.mounts (pathJoin "/tmp" (baseName rf)) rf
          .ok (some rf, cliArgs.dropLast, { env with ctx := { env.ctx with mounts := m3 } })
      | none => .ok (none, cliArgs, env)
  else .ok (none, cliArgs, env)

/-- Command rendering step of `prepareEnv`: substitute `$@`/`$1` tokens,
then append the declared args and remaining CLI args unless the rendered
command is a bare interactive shell. -/
def renderCommandArgs (env : Env) (fileArg : Option String) (cliArgs : List String) :
    List String :=
  let commandArgs := env.command.foldl (fun acc c =>
    if c = "$@" ∧ cliArgs ≠ [] then acc ++ cliArgs
    else if c = "$1" ∧ fileArg.isSome then acc ++ ["/tmp/" ++ baseName (fileArg.getD "")]
    else acc ++ [c]) []
  if commandArgs = [] ∨ commandArgs.getLast? ≠ some "/bin/bash" then
    commandArgs ++ env.args ++ cliArgs
  else commandArgs

/-- The OCI userns interaction at the end of `prepareEnv`: joining a shared
network namespace with uidmap active also binds the user namespace. -/
def userNsStep (env : Env) : Env :=
  if capGet env.capabilities "uidmap" ∧ env.ctx.networkNamespace.startsWith "container:" then
    let a2 := env.ctx.execArgs ++ ["--userns", env.ctx.networkNamespace]
    { env with ctx := { env.ctx with execArgs := a2 } }
  else env

/-- `prepareEnv`: generate podman exec args based on capabilities. Returns
the `(name, args, commandArgs)` triple together with the final `Env` and
the final CLI list, because the source mutates both (warnings printed by
`validateEnv` are side effects and are dropped here as in the source). The
body is the source function with its comment-delimited blocks factored
into the named step functions above. -/
def prepareEnv (host : Host) (env0 : Env) (cliArgs0 : List String) :
    Except String ((String × List String × List String) × Env × List String) :=
  match applyCapabilities host env0 with
  | .error er => .error er
  | .ok env =>
    let args := ["--hostname", env.name]
    let args := args ++ (if env.dns ≠ "" ∧ hasDirectNetwork env.ctx then ["--dns=" ++ env.dns] else [])
    let args := args ++ (if env.shmsize ≠ "" then ["--shm-size=" ++ env.shmsize] else [])
    let env := mergeHomeMount host env
    match portPublishArgs env with
    | .error er => .error er
    | .ok portArgs =>
      let args := args ++ portArgs
      let env := mergeResidual host env
      match fileArgStep host env cliArgs0 with
      | .error er => .error er
      | .ok (fileArg, cliArgs, env) =>
        let commandArgs := renderCommandArgs env fileArg cliArgs
        match validateEnv host env with
        | .error er => .error er
        | .ok (env, _warnings) =>
          let env := userNsStep env
          let argsCtx := getArgs host env.ctx
          .ok ((env.name, args ++ argsCtx.1, commandArgs), { env with ctx := argsCtx.2 }, cliArgs)

/-- `Env.applyParent`, as a pure pair transformer `(child, parent) ↦
(child', parent')`. The source mutates the child in place; for map-valued
fields it fetches the parent's dict object, calls `.update` on it (mutating
the parent) and stores the same object in the child, so the merged dict
appears on both records. Scalar fields dispatch on the child's membership
in `(None, "", [], \x7b\x7d)`; list/dict branches dispatch on the parent's
value type. `name` and `parent` are skipped; `ctx`, `runtime` and the
boolean internals never match the unset sentinels, and `ctx` (a dataclass)
is neither a list nor a dict, so a non-default child `ctx` is kept and a
default one inherits nothing list/dict-wise (the unset test compares a
dataclass with the sentinels and is always false, keeping the child's). -/
def applyParent (e p : Env) : Env × Env :=
  let environMerged := if e.environ = [] then p.environ else dictUpdate p.environ e.environ
  let mountsMerged := if e.mounts = [] then p.mounts else dictUpdate p.mounts e.mounts
  let capsMerged := if e.capabilities = [] then p.capabilities
    else dictUpdate p.capabilities e.capabilities
  let child := { e with
    description := if e.description = none ∨ e.description = some "" then p.description
      else e.description,
    desktop := if e.desktop = none then p.desktop else e.desktop,
    image := if e.image = "" then p.image else e.image,
    rootfs := if e.rootfs = "" then p.rootfs else e.rootfs,
    dns := if e.dns = "" then p.dns else e.dns,
    imageCustomizations := if e.imageCustomizations = [] then p.imageCustomizations
      else e.imageCustomizations ++ p.imageCustomizations,
    imageTasks := if e.imageTasks = [] then p.imageTasks else e.imageTasks ++ p.imageTasks,
    packages := if e.packages = [] then p.packages else e.packages ++ p.packages,
    command := if e.command = [] then p.command else e.command,
    args := if e.args = [] then p.args else e.args ++ p.args,
    environ := environMerged,
    syscaps := if e.syscaps = [] then p.syscaps else e.syscaps ++ p.syscaps,
    mounts := mountsMerged,
    capabilities := capsMerged,
    network := if e.network = "" then p.network else e.network,
    requires := if e.requires = [] then p.requires else e.requires ++ p.requires,
    overlays := if e.overlays = [] then p.overlays else e.overlays ++ p.overlays,
    home := if e.home = "" then p.home else e.home,
    shmsize := if e.shmsize = "" then p.shmsize else e.shmsize,
    ports := if e.ports = [] then p.ports else e.ports ++ p.ports,
    runtime := if e.runtime = none then p.runtime else e.runtime,
    runDir := if e.runDir = none then p.runDir else e.runDir,
    overlaysDir := if e.overlaysDir = none then p.overlaysDir else e.overlaysDir,
    configFile := if e.configFile = none then p.configFile else e.configFile }
  let parent := { p with
    environ := if e.environ = [] then p.environ else environMerged,
    mounts := if e.mounts = [] then p.mounts else mountsMerged,
    capabilities := if e.capabilities = [] then p.capabilities else capsMerged }
  (child, parent)

/-- Modelled from the spec: the transitive inheritance resolver is part of
the repository's configuration loader, which is not under `src/`; only the
single-step `Env.applyParent` is. Per the spec, the merge "must be
transitively applied up an inheritance chain with cycle detection (an
environment must not be its own ancestor)", raising a ConfigurationError on
a cycle. `visited` carries the names already on the chain; the fuel bound
makes the walk a total function. -/
def resolveParentChain (registry : List (String × Env)) :
    Nat → List String → Env → Except String Env
  | 0, _, _ => .error "ConfigurationError: inheritance chain too deep"
  | fuel + 1, visited, env =>
    if env.parent = "" then .ok env
    else if visited.contains env.parent then
      .error ("ConfigurationError: inheritance cycle detected at " ++ env.parent)
    else match dictGet registry env.parent with
      | none => .error ("ConfigurationError: unknown parent environment " ++ env.parent)
      | some parentEnv =>
        let merged := (applyParent env parentEnv).1
        resolveParentChain registry fuel (env.parent :: visited)
          { merged with parent := parentEnv.parent }

/-- Modelled from the spec: resolve an environment against the registry of
named environments, applying the parent merge transitively. -/
def resolveEnv (registry : List (String × Env)) (env : Env) : Except String Env :=
  resolveParentChain registry (registry.length + 1) [env.name] env

/-- A fully benign host snapshot: no environment variables, no devices, no
gitconfig, nothing on the filesystem, everything readable, no SELinux
module, and path resolution the identity. -/
def host0 : Host where
  environ := fun _ => none
  devices := []
  gitconfig := none
  isFile := fun _ => false
  pathExists := fun _ => false
  readable := fun _ => true
  label := fun _ => "container_file_t"
  hasSelinux := false
  resolve := fun s => s
  resolveStrict := fun s => some s

theorem dictGet_append {β : Type} (d1 d2 : List (String × β)) (x : String) :
    dictGet (d1 ++ d2) x = (dictGet d1 x).orElse (fun _ => dictGet d2 x) := by
  induction d1 with
  | nil => simp [dictGet]
  | cons a t ih =>
    obtain ⟨k, v⟩ := a
    by_cases h : k = x <;> simp [dictGet, h, ih]

theorem dictGet_eq_none_of_not_any {β : Type} (d : List (String × β)) (k : String)
    (h : d.any (fun p => p.1 = k) = false) : dictGet d k = none := by
  induction d with
  | nil => rfl
  | cons a t ih =>
    simp only [List.any_cons, Bool.or_eq_false_iff] at h
    obtain ⟨k', v⟩ := a
    have hk : ¬ (k' = k) := by simpa using h.1
    simp [dictGet, hk, ih h.2]

theorem dictGet_mapReplace_ne {β : Type} (d : List (String × β)) (k : String) (v : β)
    (x : String) (h : x ≠ k) :
    dictGet (d.map (fun p => if p.1 = k then (k, v) else p)) x = dictGet d x := by
  induction d with
  | nil => rfl
  | cons a t ih =>
    obtain ⟨k', v'⟩ := a
    simp only [List.map_cons]
    have hkx : ¬ k = x := fun hh => h hh.symm
    by_cases hk : k' = k
    · subst hk
      rw [if_pos (show ((k', v') : String × β).1 = k' from rfl)]
      simp only [dictGet]
      rw [if_neg hkx, if_neg hkx]
      exact ih
    · rw [if_neg (show ¬ ((k', v') : String × β).1 = k from hk)]
      simp only [dictGet]
      by_cases hx : k' = x
      · rw [if_pos hx, if_pos hx]
      · rw [if_neg hx, if_neg hx]
        exact ih

theorem dictGet_mapReplace_eq {β : Type} (d : List (String × β)) (k : String) (v : β)
    (h : d.any (fun p => p.1 = k) = true) :
    dictGet (d.map (fun p => if p.1 = k then (k, v) else p)) k = some v := by
  induction d with
  | nil => simp at h
  | cons a t ih =>
    obtain ⟨k', v'⟩ := a
    simp only [List.map_cons]
    by_cases hk : k' = k
    · rw [if_pos (show ((k', v') : String × β).1 = k from hk)]
      simp [dictGet]
    · rw [if_neg (show ¬ ((k', v') : String × β).1 = k from hk)]
      simp only [dictGet]
      rw [if_neg hk]
      apply ih
      simp only [List.any_cons, Bool.or_eq_true_iff] at h
      rcases h with h1 | h1
      · exact absurd (by simpa using h1) hk
      · exact h1

/-- Assignment followed by lookup behaves as Python dict assignment. -/
theorem dictGet_dictInsert {β : Type} (d : List (String × β)) (k : String) (v : β)
    (x : String) :
    dictGet (dictInsert d k v) x = if x = k then some v else dictGet d x := by
  unfold dictInsert
  by_cases hany : d.any (fun p => p.1 = k) = true
  · simp only [hany, if_true]
    by_cases hx : x = k
    · subst hx; simp [dictGet_mapReplace_eq d x v hany]
    · simp [hx, dictGet_mapReplace_ne d k v x hx]
  · have hany' : d.any (fun p => p.1 = k) = false := by
      cases hb : d.any (fun p => p.1 = k)
      · rfl
      · exact absurd hb hany
    simp only [hany', Bool.false_eq_true, if_false, dictGet_append]
    by_cases hx : x = k
    · subst hx
      rw [dictGet_eq_none_of_not_any d x hany']
      simp [dictGet]
    · rw [if_neg hx]
      have h2 : dictGet [(k, v)] x = none := by
        simp only [dictGet]
        rw [if_neg (fun hh => hx hh.symm)]
      rw [h2]
      cases dictGet d x <;> rfl

theorem dictGet_eq_none_of_not_mem {β : Type} (d : List (String × β)) (k : String)
    (h : k ∉ d.map Prod.fst) : dictGet d k = none := by
  apply dictGet_eq_none_of_not_any
  rw [List.any_eq_false]
  intro p hp hk
  have hpk : p.1 = k := of_decide_eq_true hk
  exact h (hpk ▸ List.mem_map_of_mem Prod.fst hp)

/-- Lookup after `d.update(e)`: the entry of `e` wins when present. -/
theorem dictGet_dictUpdate {β : Type} (d e : List (String × β)) (x : String)
    (he : (e.map Prod.fst).Nodup) :
    dictGet (dictUpdate d e) x = (dictGet e x).orElse (fun _ => dictGet d x) := by
  induction e generalizing d with
  | nil => simp [dictUpdate, dictGet]
  | cons a t ih =>
    obtain ⟨k, v⟩ := a
    simp only [List.map_cons, List.nodup_cons] at he
    have step : dictUpdate d ((k, v) :: t) = dictUpdate (dictInsert d k v) t := rfl
    rw [step, ih (dictInsert d k v) he.2]
    by_cases hx : x = k
    · subst hx
      rw [dictGet_eq_none_of_not_mem t x he.1]
      simp [dictGet, dictGet_dictInsert]
    · simp [dictGet, Ne.symm hx, hx, dictGet_dictInsert]

/-- Concrete child environment for exercising the inheritance merge. -/
def childC2 : Env := { name := "child", command := ["a"], image := "" }

/-- Concrete parent environment for exercising the inheritance merge. -/
def parentC2 : Env := { name := "parent", command := ["b"], image := "img" }

/-- Claim C2 counterexample: the claim reads every list-valued field of the
merged child as child-then-parent concatenation, but the `command` field of
a child with command `["a"]` merged with a parent with command `["b"]`
stays `["a"]`, not `["a", "b"]`. -/
theorem C2_list_clause_fails_on_command :
    (applyParent childC2 parentC2).1.command ≠ childC2.command ++ parentC2.command := by
  decide

/-- Claim C2, amended: after the merge, every scalar field left unset in
the child (empty string or `None`) equals the parent's; every list field
**other than `command`** equals the child's list followed by the parent's;
and every map field looks up as the parent's map overridden by the child's
entries (child wins on key collision). -/
theorem C2_merge_amended (e p : Env)
    (he : (e.environ.map Prod.fst).Nodup)
    (hm : (e.mounts.map Prod.fst).Nodup)
    (hc : (e.capabilities.map Prod.fst).Nodup) :
    (((e.description = none ∨ e.description = some "") →
        (applyParent e p).1.description = p.description)
     ∧ (e.desktop = none → (applyParent e p).1.desktop = p.desktop)
     ∧ (e.image = "" → (applyParent e p).1.image = p.image)
     ∧ (e.rootfs = "" → (applyParent e p).1.rootfs = p.rootfs)
     ∧ (e.dns = "" → (applyParent e p).1.dns = p.dns)
     ∧ (e.network = "" → (applyParent e p).1.network = p.network)
     ∧ (e.home = "" → (applyParent e p).1.home = p.home)
     ∧ (e.shmsize = "" → (applyParent e p).1.shmsize = p.shmsize)
     ∧ (e.runtime = none → (applyParent e p).1.runtime = p.runtime)
     ∧ (e.runDir = none → (applyParent e p).1.runDir = p.runDir)
     ∧ (e.overlaysDir = none → (applyParent e p).1.overlaysDir = p.overlaysDir)
     ∧ (e.configFile = none → (applyParent e p).1.configFile = p.configFile))
    ∧ ((applyParent e p).1.imageCustomizations =
        e.imageCustomizations ++ p.imageCustomizations
     ∧ (applyParent e p).1.imageTasks = e.imageTasks ++ p.imageTasks
     ∧ (applyParent e p).1.packages = e.packages ++ p.packages
     ∧ (applyParent e p).1.args = e.args ++ p.args
     ∧ (applyParent e p).1.syscaps = e.syscaps ++ p.syscaps
     ∧ (applyParent e p).1.requires = e.requires ++ p.requires
     ∧ (applyParent e p).1.overlays = e.overlays ++ p.overlays
     ∧ (applyParent e p).1.ports = e.ports ++ p.ports)
    ∧ ((∀ k, dictGet (applyParent e p).1.environ k =
          (dictGet e.environ k).orElse (fun _ => dictGet p.environ k))
     ∧ (∀ k, dictGet (applyParent e p).1.mounts k =
          (dictGet e.mounts k).orElse (fun _ => dictGet p.mounts k))
     ∧ (∀ k, dictGet (applyParent e p).1.capabilities k =
          (dictGet e.capabilities k).orElse (fun _ => dictGet p.capabilities k))) := by
  refine ⟨⟨?_, ?_, ?_, ?_, ?_, ?_, ?_, ?_, ?_, ?_, ?_, ?_⟩, ⟨?_, ?_, ?_, ?_, ?_, ?_, ?_, ?_⟩,
    ?_, ?_, ?_⟩
  · intro h; simp [applyParent, h]
  · intro h; simp [applyParent, h]
  · intro h; simp [applyParent, h]
  · intro h; simp [applyParent, h]
  · intro h; simp [applyParent, h]
  · intro h; simp [applyParent, h]
  · intro h; simp [applyParent, h]
  · intro h; simp [applyParent, h]
  · intro h; simp [applyParent, h]
  · intro h; simp [applyParent, h]
  · intro h; simp [applyParent, h]
  · intro h; simp [applyParent, h]
  · by_cases h : e.imageCustomizations = [] <;> simp [applyParent, h]
  · by_cases h : e.imageTasks = [] <;> simp [applyParent, h]
  · by_cases h : e.packages = [] <;> simp [applyParent, h]
  · by_cases h : e.args = [] <;> simp [applyParent, h]
  · by_cases h : e.syscaps = [] <;> simp [applyParent, h]
  · by_cases h : e.requires = [] <;> simp [applyParent, h]
  · by_cases h : e.overlays = [] <;> simp [applyParent, h]
  · by_cases h : e.ports = [] <;> simp [applyParent, h]
  · intro k
    by_cases h : e.environ = []
    · simp [applyParent, h, dictGet]
    · simp [applyParent, h, dictGet_dictUpdate _ _ _ he]
  · intro k
    by_cases h : e.mounts = []
    · simp [applyParent, h, dictGet]
    · simp [applyParent, h, dictGet_dictUpdate _ _ _ hm]
  · intro k
    by_cases h : e.capabilities = []
    · simp [applyParent, h, dictGet]
    · simp [applyParent, h, dictGet_dictUpdate _ _ _ hc]

/-- Child environment with a non-empty map and an unset scalar, for the C2
witness. -/
def childW2 : Env :=
  { name := "cw", image := "", packages := ["git"],
    environ := [("A", "1")], capabilities := [("x11", true)] }

/-- Parent environment with overlapping map keys, for the C2 witness. -/
def parentW2 : Env :=
  { name := "pw", image := "pimg", packages := ["vim"],
    environ := [("A", "0"), ("B", "2")] }

/-- Witness for the amended C2 merge theorem at concrete environments. -/
theorem C2_merge_amended_witness :
    (applyParent childW2 parentW2).1.image = parentW2.image
    ∧ (applyParent childW2 parentW2).1.packages = childW2.packages ++ parentW2.packages
    ∧ dictGet (applyParent childW2 parentW2).1.environ "A" =
        (dictGet childW2.environ "A").orElse (fun _ => dictGet parentW2.environ "A")
    ∧ dictGet (applyParent childW2 parentW2).1.environ "B" =
        (dictGet childW2.environ "B").orElse (fun _ => dictGet parentW2.environ "B") := by
  have h := C2_merge_amended childW2 parentW2 (by decide) (by decide) (by decide)
  exact ⟨h.1.2.2.1 (by decide), h.2.1.2.2.1, h.2.2.1 "A", h.2.2.1 "B"⟩

/-- Child with an empty command, for the C3 counterexample. -/
def childC3 : Env := { name := "c3", command := [] }

/-- Parent with a command, for the C3 counterexample. -/
def parentC3 : Env := { name := "p3", command := ["run"] }

/-- Claim C3 counterexample: a child whose command is the empty list does
not keep its own (empty) command across the merge; it inherits the
parent's, because the generic unset-field branch runs before the
command-specific exemption. -/
theorem C3_empty_command_inherited :
    (applyParent childC3 parentC3).1.command ≠ childC3.command := by
  decide

/-- Claim C3, amended: the command field is not inherited when the child's
command is non-empty; a child whose command is the empty list inherits the
parent's command like any other unset field. -/
theorem C3_command_amended (e p : Env) :
    (e.command ≠ [] → (applyParent e p).1.command = e.command)
    ∧ (e.command = [] → (applyParent e p).1.command = p.command) := by
  constructor
  · intro h; simp [applyParent, h]
  · intro h; simp [applyParent, h]

/-- Child with a command of its own, for the C3 witness. -/
def childW3 : Env := { name := "cw3", command := ["firefox"] }

/-- Parent with a different command, for the C3 witness. -/
def parentW3 : Env := { name := "pw3", command := ["emacs"] }

/-- Witness for the amended C3 theorem at concrete environments. -/
theorem C3_command_amended_witness :
    (applyParent childW3 parentW3).1.command = childW3.command :=
  (C3_command_amended childW3 parentW3).1 (by decide)

/-- Child with a non-empty environ map, for the C9 counterexample. -/
def childC9 : Env := { name := "c9", environ := [("b", "2")] }

/-- Parent whose environ map gets mutated, for the C9 counterexample. -/
def parentC9 : Env := { name := "p9", environ := [("a", "1")] }

/-- Claim C9 counterexample: the merge does not leave the parent unchanged;
the source fetches the parent's dict object and calls `.update` on it
without copying, so the child's entries are written into the parent's map. -/
theorem C9_parent_environ_mutated :
    (applyParent childC9 parentC9).2.environ ≠ parentC9.environ := by
  decide

/-- Claim C9, amended: the merge leaves every scalar and list field of the
parent unchanged, but each map-valued field of the parent with a non-empty
child counterpart is replaced by the merged map (parent entries overridden
by the child's), because the source updates the parent's dict object in
place and the child aliases it. -/
theorem C9_parent_mutation (e p : Env) :
    ((applyParent e p).2.name = p.name
     ∧ (applyParent e p).2.parent = p.parent
     ∧ (applyParent e p).2.description = p.description
     ∧ (applyParent e p).2.desktop = p.desktop
     ∧ (applyParent e p).2.image = p.image
     ∧ (applyParent e p).2.rootfs = p.rootfs
     ∧ (applyParent e p).2.dns = p.dns
     ∧ (applyParent e p).2.network = p.network
     ∧ (applyParent e p).2.home = p.home
     ∧ (applyParent e p).2.shmsize = p.shmsize
     ∧ (applyParent e p).2.runtime = p.runtime
     ∧ (applyParent e p).2.ctx = p.ctx
     ∧ (applyParent e p).2.runDir = p.runDir
     ∧ (applyParent e p).2.overlaysDir = p.overlaysDir
     ∧ (applyParent e p).2.manageImage = p.manageImage
     ∧ (applyParent e p).2.autoUpdate = p.autoUpdate
     ∧ (applyParent e p).2.mountCache = p.mountCache
     ∧ (applyParent e p).2.configFile = p.configFile)
    ∧ ((applyParent e p).2.imageCustomizations = p.imageCustomizations
     ∧ (applyParent e p).2.imageTasks = p.imageTasks
     ∧ (applyParent e p).2.packages = p.packages
     ∧ (applyParent e p).2.command = p.command
     ∧ (applyParent e p).2.args = p.args
     ∧ (applyParent e p).2.syscaps = p.syscaps
     ∧ (applyParent e p).2.requires = p.requires
     ∧ (applyParent e p).2.overlays = p.overlays
     ∧ (applyParent e p).2.ports = p.ports)
    ∧ ((applyParent e p).2.environ =
        (if e.environ = [] then p.environ else dictUpdate p.environ e.environ)
     ∧ (applyParent e p).2.mounts =
        (if e.mounts = [] then p.mounts else dictUpdate p.mounts e.mounts)
     ∧ (applyParent e p).2.capabilities =
        (if e.capabilities = [] then p.capabilities
         else dictUpdate p.capabilities e.capabilities)) := by
  refine ⟨⟨rfl, rfl, rfl, rfl, rfl, rfl, rfl, rfl, rfl, rfl, rfl, rfl, rfl, rfl, rfl, rfl,
    rfl, rfl⟩, ⟨rfl, rfl, rfl, rfl, rfl, rfl, rfl, rfl, rfl⟩, ?_, ?_, ?_⟩
  · by_cases h : e.environ = [] <;> simp [applyParent, h]
  · by_cases h : e.mounts = [] <;> simp [applyParent, h]
  · by_cases h : e.capabilities = [] <;> simp [applyParent, h]

/-- One unfolding step of the chain resolver. -/
theorem resolveParentChain_step (reg : List (String × Env)) (fuel : Nat)
    (visited : List String) (env : Env) :
    resolveParentChain reg (fuel + 1) visited env =
      (if env.parent = "" then .ok env
       else if visited.contains env.parent then
         .error ("ConfigurationError: inheritance cycle detected at " ++ env.parent)
       else match dictGet reg env.parent with
         | none => .error ("ConfigurationError: unknown parent environment " ++ env.parent)
         | some parentEnv =>
           resolveParentChain reg fuel (env.parent :: visited)
             { (applyParent env parentEnv).1 with parent := parentEnv.parent }) := rfl

/-- Claim C8: resolving an inheritance chain with a cycle (`A parent=B`,
`B parent=A`) reports a configuration error; the resolver is a total
function, so it cannot loop forever. -/
theorem C8_cycle_detected (eA eB : Env)
    (hA : eA.name = "A") (hpa : eA.parent = "B")
    (hB : eB.name = "B") (hpb : eB.parent = "A") :
    ∃ msg, resolveEnv [("A", eA), ("B", eB)] eA = Except.error msg := by
  refine ⟨"ConfigurationError: inheritance cycle detected at A", ?_⟩
  have h1 : resolveEnv [("A", eA), ("B", eB)] eA
      = resolveParentChain [("A", eA), ("B", eB)] (2 + 1) [eA.name] eA := rfl
  rw [h1, hA, resolveParentChain_step, hpa]
  rw [if_neg (by decide), if_neg (by decide)]
  have hreg : dictGet [("A", eA), ("B", eB)] "B" = some eB := by
    simp [dictGet]
  rw [hreg]
  show resolveParentChain _ (1 + 1) _ _ = _
  rw [resolveParentChain_step]
  have hp2 : ({ (applyParent eA eB).1 with parent := eB.parent } : Env).parent = "A" := hpb
  rw [hp2]
  rw [if_neg (by decide), if_pos (by decide)]
  rfl

/-- Concrete environment `A` of the C8 cycle witness. -/
def envA8 : Env := { name := "A", parent := "B" }

/-- Concrete environment `B` of the C8 cycle witness. -/
def envB8 : Env := { name := "B", parent := "A" }

/-- Witness for the C8 cycle theorem at concrete environments. -/
theorem C8_cycle_detected_witness :
    ∃ msg, resolveEnv [("A", envA8), ("B", envB8)] envA8 = Except.error msg :=
  C8_cycle_detected envA8 envB8 rfl rfl rfl rfl

theorem insertSorted_perm {α : Type} (le : α → α → Bool) (x : α) (l : List α) :
    (insertSorted le x l).Perm (x :: l) := by
  induction l with
  | nil => simp [insertSorted]
  | cons y ys ih =>
    unfold insertSorted
    by_cases h : le x y = true
    · simp [h]
    · simp only [h, Bool.false_eq_true, if_false]
      exact (ih.cons y).trans (List.Perm.swap x y ys)

theorem sortBy_perm {α : Type} (le : α → α → Bool) (l : List α) :
    (sortBy le l).Perm l := by
  induction l with
  | nil => exact List.Perm.refl _
  | cons x xs ih =>
    have h1 : sortBy le (x :: xs) = insertSorted le x (sortBy le xs) := rfl
    rw [h1]
    exact (insertSorted_perm le x (sortBy le xs)).trans (ih.cons x)

theorem mem_insertSorted {α : Type} (le : α → α → Bool) (x y : α) (l : List α) :
    y ∈ insertSorted le x l ↔ y = x ∨ y ∈ l := by
  constructor
  · intro h
    have h2 := (insertSorted_perm le x l).mem_iff.mp h
    rcases List.mem_cons.mp h2 with h1 | h1
    · exact Or.inl h1
    · exact Or.inr h1
  · intro h
    apply (insertSorted_perm le x l).mem_iff.mpr
    exact List.mem_cons.mpr h

theorem pairwise_insertSorted {α : Type} (le : α → α → Bool)
    (htot : ∀ a b, le a b = true ∨ le b a = true)
    (htrans : ∀ a b c, le a b = true → le b c = true → le a c = true)
    (x : α) (l : List α) (hl : l.Pairwise (fun a b => le a b = true)) :
    (insertSorted le x l).Pairwise (fun a b => le a b = true) := by
  induction l with
  | nil => simp [insertSorted]
  | cons y ys ih =>
    have hy := (List.pairwise_cons.mp hl).1
    have hys := (List.pairwise_cons.mp hl).2
    unfold insertSorted
    by_cases h : le x y = true
    · rw [if_pos h]
      apply List.Pairwise.cons _ (List.Pairwise.cons hy hys)
      intro z hz
      rcases List.mem_cons.mp hz with hz | hz
      · exact hz ▸ h
      · exact htrans x y z h (hy z hz)
    · simp only [h, Bool.false_eq_true, if_false]
      apply List.Pairwise.cons _ (ih hys)
      intro z hz
      rcases (mem_insertSorted le x z ys).mp hz with hz | hz
      · rcases htot x y with h1 | h1
        · exact absurd h1 h
        · rw [hz]
          exact h1
      · exact hy z hz

theorem sortBy_pairwise {α : Type} (le : α → α → Bool)
    (htot : ∀ a b, le a b = true ∨ le b a = true)
    (htrans : ∀ a b c, le a b = true → le b c = true → le a c = true)
    (l : List α) : (sortBy le l).Pairwise (fun a b => le a b = true) := by
  induction l with
  | nil => simp [sortBy]
  | cons x xs ih => exact pairwise_insertSorted le htot htrans x (sortBy le xs) ih

theorem sortBy_eq_of_perm {α : Type} (le : α → α → Bool)
    (htot : ∀ a b, le a b = true ∨ le b a = true)
    (htrans : ∀ a b c, le a b = true → le b c = true → le a c = true)
    (hanti : ∀ a b, le a b = true → le b a = true → a = b)
    {l1 l2 : List α} (h : l1.Perm l2) : sortBy le l1 = sortBy le l2 := by
  haveI : IsAntisymm α (fun a b => le a b = true) := ⟨hanti⟩
  exact List.eq_of_perm_of_sorted
    (((sortBy_perm le l1).trans h).trans (sortBy_perm le l2).symm)
    (sortBy_pairwise le htot htrans l1) (sortBy_pairwise le htot htrans l2)

theorem strLe_total : ∀ a b : String, strLe a b = true ∨ strLe b a = true := by
  intro a b
  unfold strLe
  rcases le_total a b with h | h
  · exact Or.inl (by simpa using h)
  · exact Or.inr (by simpa using h)

theorem strLe_trans : ∀ a b c : String,
    strLe a b = true → strLe b c = true → strLe a c = true := by
  intro a b c hab hbc
  unfold strLe at *
  simp only [decide_eq_true_eq] at *
  exact le_trans hab hbc

theorem strLe_anti : ∀ a b : String, strLe a b = true → strLe b a = true → a = b := by
  intro a b hab hba
  unfold strLe at *
  simp only [decide_eq_true_eq] at *
  exact le_antisymm hab hba

theorem pairLe_iff (a b : String × String) :
    pairLe a b = true ↔ a.1 < b.1 ∨ (a.1 = b.1 ∧ a.2 ≤ b.2) := by
  unfold pairLe
  simp [Bool.or_eq_true, Bool.and_eq_true]

theorem pairLe_total : ∀ a b : String × String,
    pairLe a b = true ∨ pairLe b a = true := by
  intro a b
  rcases lt_trichotomy a.1 b.1 with h | h | h
  · exact Or.inl ((pairLe_iff a b).mpr (Or.inl h))
  · rcases le_total a.2 b.2 with h2 | h2
    · exact Or.inl ((pairLe_iff a b).mpr (Or.inr ⟨h, h2⟩))
    · exact Or.inr ((pairLe_iff b a).mpr (Or.inr ⟨h.symm, h2⟩))
  · exact Or.inr ((pairLe_iff b a).mpr (Or.inl h))

theorem pairLe_trans : ∀ a b c : String × String,
    pairLe a b = true → pairLe b c = true → pairLe a c = true := by
  intro a b c hab hbc
  rcases (pairLe_iff a b).mp hab with h1 | ⟨h1, h1'⟩ <;>
    rcases (pairLe_iff b c).mp hbc with h2 | ⟨h2, h2'⟩
  · exact (pairLe_iff a c).mpr (Or.inl (lt_trans h1 h2))
  · exact (pairLe_iff a c).mpr (Or.inl (h2 ▸ h1))
  · exact (pairLe_iff a c).mpr (Or.inl (h1 ▸ h2))
  · exact (pairLe_iff a c).mpr (Or.inr ⟨h1.trans h2, le_trans h1' h2'⟩)

theorem pairLe_anti : ∀ a b : String × String,
    pairLe a b = true → pairLe b a = true → a = b := by
  intro a b hab hba
  rcases (pairLe_iff a b).mp hab with h1 | ⟨h1, h1'⟩ <;>
    rcases (pairLe_iff b a).mp hba with h2 | ⟨h2, h2'⟩
  · exact absurd (lt_trans h1 h2) (lt_irrefl a.1)
  · exact absurd (h2 ▸ h1) (lt_irrefl b.1)
  · exact absurd (h1 ▸ h2) (lt_irrefl a.1)
  · exact Prod.ext h1 (le_antisymm h1' h2')

/-- Lookup only depends on the dict's binding set when keys are unique. -/
theorem dictGet_perm {β : Type} {m m' : List (String × β)} (h : m.Perm m')
    (hn : (m.map Prod.fst).Nodup) (k : String) : dictGet m k = dictGet m' k := by
  induction h with
  | nil => rfl
  | cons a h ih =>
    obtain ⟨k1, v1⟩ := a
    simp only [List.map_cons, List.nodup_cons] at hn
    simp only [dictGet]
    by_cases hk : k1 = k
    · simp [hk]
    · simp only [hk, if_false]
      exact ih hn.2
  | swap a b l =>
    obtain ⟨k1, v1⟩ := a
    obtain ⟨k2, v2⟩ := b
    simp only [List.map_cons, List.nodup_cons, List.mem_cons] at hn
    have hne : k2 ≠ k1 := fun hh => hn.1 (Or.inl hh)
    simp only [dictGet]
    by_cases h1 : k1 = k <;> by_cases h2 : k2 = k
    · exact absurd (h2.trans h1.symm) hne
    · simp [h1, h2]
    · simp [h1, h2]
    · simp [h1, h2]
  | trans h1 h2 ih1 ih2 =>
    have hn2 := (h1.map Prod.fst).nodup_iff.mp hn
    exact (ih1 hn).trans (ih2 hn2)

/-- The rendered `-v` flags do not depend on mount insertion order. -/
theorem mountArgs_perm (host : Host) {m m' : List (String × String)}
    (h : m.Perm m') (hn : (m.map Prod.fst).Nodup) :
    mountArgs host m = mountArgs host m' := by
  unfold mountArgs
  have hk : sortBy strLe (m.map Prod.fst) = sortBy strLe (m'.map Prod.fst) :=
    sortBy_eq_of_perm strLe strLe_total strLe_trans strLe_anti (h.map Prod.fst)
  rw [← hk]
  have hg : ∀ k, dictGet m k = dictGet m' k := dictGet_perm h hn
  simp only [hg]

/-- The rendered `-e` flags do not depend on environ insertion order. -/
theorem environArgs_perm {e e' : List (String × String)} (h : e.Perm e') :
    environArgs e = environArgs e' := by
  unfold environArgs
  rw [sortBy_eq_of_perm pairLe pairLe_total pairLe_trans pairLe_anti h]

/-- Claim C6: in the compiled runtime arguments the `-v` flags are rendered
over the container paths in sorted order and the `-e` flags over the
variable names in sorted order, independently of the insertion order of the
mounts and environ maps: `getArgs` output is invariant under permuting
either map, the rendered mount-key sequence is sorted and enumerates
exactly the mount keys, and the rendered environ sequence is sorted by name
and enumerates exactly the environ entries. -/
theorem C6_sorted_flags (host : Host) (c : ExecContext)
    (m' e' : List (String × String))
    (hmn : (c.mounts.map Prod.fst).Nodup)
    (hmp : c.mounts.Perm m') (hep : c.environ.Perm e') :
    (getArgs host c).1 = (getArgs host { c with mounts := m', environ := e' }).1
    ∧ (sortBy strLe (c.mounts.map Prod.fst)).Pairwise (fun a b : String => a ≤ b)
    ∧ (sortBy strLe (c.mounts.map Prod.fst)).Perm (c.mounts.map Prod.fst)
    ∧ ((sortBy pairLe c.environ).map Prod.fst).Pairwise (fun a b : String => a ≤ b)
    ∧ (sortBy pairLe c.environ).Perm c.environ := by
  refine ⟨?_, ?_, ?_, ?_, ?_⟩
  · have h1 : mountArgs host c.mounts = mountArgs host m' := mountArgs_perm host hmp hmn
    have h2 : environArgs c.environ = environArgs e' := environArgs_perm hep
    by_cases hc : c.cwd = "." <;> simp [getArgs, hc, h1, h2]
  · exact (sortBy_pairwise strLe strLe_total strLe_trans _).imp
      (fun h => of_decide_eq_true h)
  · exact sortBy_perm strLe _
  · rw [List.pairwise_map]
    apply (sortBy_pairwise pairLe pairLe_total pairLe_trans _).imp
    intro a b hab
    rcases (pairLe_iff a b).mp hab with h | ⟨h, _⟩
    · exact le_of_lt h
    · exact le_of_eq h
  · exact sortBy_perm pairLe _

/-- Context with deliberately unsorted mounts and environ, for the C6
witness. -/
def ctxW6 : ExecContext :=
  { mounts := [("/x", "/hx"), ("/a", "/ha")], environ := [("B", "1"), ("A", "2")] }

/-- Witness for C6 at a concrete context and a concrete permutation. -/
theorem C6_sorted_flags_witness :
    (getArgs host0 ctxW6).1 =
      (getArgs host0 { ctxW6 with
        mounts := [("/a", "/ha"), ("/x", "/hx")],
        environ := [("A", "2"), ("B", "1")] }).1
    ∧ (sortBy strLe (ctxW6.mounts.map Prod.fst)).Pairwise (fun a b : String => a ≤ b) := by
  have h := C6_sorted_flags host0 ctxW6 [("/a", "/ha"), ("/x", "/hx")]
    [("A", "2"), ("B", "1")] (by decide) (by decide) (by decide)
  exact ⟨h.1, h.2.1⟩

/-- The projection of an `Env` no capability handler other than the
identity one may change: name, command, args, and the context's home and
xdgDir. -/
def frameProj (e : Env) : String × List String × List String × String × String :=
  (e.name, e.command, e.args, e.ctx.home, e.ctx.xdgDir)

/-- The projection no capability handler at all may change. -/
def frameProjNCA (e : Env) : String × List String × List String :=
  (e.name, e.command, e.args)

theorem frameProj_to_NCA {e e' : Env} (h : frameProj e' = frameProj e) :
    frameProjNCA e' = frameProjNCA e := by
  unfold frameProj at h
  unfold frameProjNCA
  injection h with h1 h
  injection h with h2 h
  injection h with h3 h
  rw [h1, h2, h3]

theorem manageImageCap_frame (a : Bool) (e : Env) :
    frameProj (manageImageCap a e) = frameProj e := by
  unfold frameProj manageImageCap; rfl

theorem rootCap_frame (a : Bool) (e : Env) :
    frameProjNCA (rootCap a e) = frameProjNCA e := by
  unfold frameProjNCA rootCap; split_ifs <;> rfl

theorem uidmapCap_frame (a : Bool) (e : Env) :
    frameProj (uidmapCap a e) = frameProj e := by
  unfold frameProj uidmapCap; split_ifs <;> rfl

theorem privilegedCap_frame (a : Bool) (e : Env) :
    frameProj (privilegedCap a e) = frameProj e := by
  unfold frameProj privilegedCap; split_ifs <;> rfl

theorem terminalCap_frame (a : Bool) (e : Env) :
    frameProj (terminalCap a e) = frameProj e := by
  unfold frameProj terminalCap; split_ifs <;> rfl

theorem networkCap_frame (a : Bool) (e : Env) :
    frameProj (networkCap a e) = frameProj e := by
  unfold frameProj networkCap
  dsimp only
  split_ifs <;> rfl

theorem mountCwdCap_frame (a : Bool) (e : Env) :
    frameProj (mountCwdCap a e) = frameProj e := by
  unfold frameProj mountCwdCap; split_ifs <;> rfl

theorem mountCacheCap_frame (a : Bool) (e : Env) :
    frameProj (mountCacheCap a e) = frameProj e := by
  unfold frameProj mountCacheCap; split_ifs <;> rfl

theorem ipcCap_frame (a : Bool) (e : Env) :
    frameProj (ipcCap a e) = frameProj e := by
  unfold frameProj ipcCap; split_ifs <;> rfl

theorem editorCap_frame (a : Bool) (h : Host) (e : Env) :
    frameProj (editorCap a h e) = frameProj e := by
  unfold frameProj editorCap; split_ifs <;> rfl

theorem webcamCap_frame (a : Bool) (h : Host) (e : Env) :
    frameProj (webcamCap a h e) = frameProj e := by
  unfold frameProj webcamCap; split_ifs <;> rfl

theorem driCap_frame (a : Bool) (e : Env) :
    frameProj (driCap a e) = frameProj e := by
  unfold frameProj driCap; split_ifs <;> rfl

theorem kvmCap_frame (a : Bool) (e : Env) :
    frameProj (kvmCap a e) = frameProj e := by
  unfold frameProj kvmCap; split_ifs <;> rfl

theorem tunCap_frame (a : Bool) (e : Env) :
    frameProj (tunCap a e) = frameProj e := by
  unfold frameProj tunCap; split_ifs <;> rfl

theorem seccompCap_frame (a : Bool) (e : Env) :
    frameProj (seccompCap a e) = frameProj e := by
  unfold frameProj seccompCap; split_ifs <;> rfl

theorem selinuxCap_frame (a : Bool) (e : Env) :
    frameProj (selinuxCap a e) = frameProj e := by
  unfold frameProj selinuxCap; split_ifs <;> rfl

theorem setuidCap_frame (a : Bool) (e : Env) :
    frameProj (setuidCap a e) = frameProj e := by
  unfold frameProj setuidCap; split_ifs <;> rfl

theorem ptraceCap_frame (a : Bool) (e : Env) :
    frameProj (ptraceCap a e) = frameProj e := by
  unfold frameProj ptraceCap; split_ifs <;> rfl

theorem autoUpdateCap_frame (a : Bool) (e : Env) :
    frameProj (autoUpdateCap a e) = frameProj e := by
  unfold frameProj autoUpdateCap; split_ifs <;> rfl

theorem x11Cap_frame (a : Bool) (h : Host) (e e' : Env)
    (hok : x11Cap a h e = .ok e') : frameProj e' = frameProj e := by
  unfold x11Cap at hok
  split at hok
  · split at hok
    · cases hok
    · injection hok with h2; subst h2; rfl
  · injection hok with h2; subst h2; rfl

theorem pulseaudioCap_frame (a : Bool) (h : Host) (e e' : Env)
    (hok : pulseaudioCap a h e = .ok e') : frameProj e' = frameProj e := by
  unfold pulseaudioCap at hok
  split at hok
  · split at hok
    · cases hok
    · injection hok with h2; subst h2; rfl
  · injection hok with h2; subst h2; rfl

theorem sshCap_frame (a : Bool) (h : Host) (e e' : Env)
    (hok : sshCap a h e = .ok e') : frameProj e' = frameProj e := by
  unfold sshCap at hok
  split at hok
  · split at hok
    · cases hok
    · injection hok with h2; subst h2; rfl
  · injection hok with h2; subst h2; rfl

theorem gpgCap_frame (a : Bool) (h : Host) (e e' : Env)
    (hok : gpgCap a h e = .ok e') : frameProj e' = frameProj e := by
  unfold gpgCap at hok
  split at hok
  · split at hok
    · cases hok
    · injection hok with h2; subst h2; rfl
  · injection hok with h2; subst h2; rfl

theorem mountRunCap_frame (a : Bool) (e e' : Env)
    (hok : mountRunCap a e = .ok e') : frameProj e' = frameProj e := by
  unfold mountRunCap at hok
  split at hok
  · split at hok
    · cases hok
    · injection hok with h2
      subst h2
      unfold frameProj
      split_ifs <;> rfl
  · injection hok with h2; subst h2; rfl

theorem gitCapLine_frame (h : Host) (e : Env) (line : String) (e' : Env)
    (hok : gitCapLine h e line = .ok e') : frameProj e' = frameProj e := by
  unfold gitCapLine at hok
  dsimp only at hok
  generalize line.trim = lt at hok
  generalize (lt.startsWith "excludesfile" : Bool) = b1 at hok
  cases b1 with
  | true =>
    rw [if_pos rfl] at hok
    generalize (lt.splitOn "=").get? 1 = r at hok
    cases r with
    | none => cases hok
    | some part =>
      dsimp only at hok
      generalize (h.isFile (h.resolve part.trim) : Bool) = b2 at hok
      cases b2 with
      | true =>
        rw [if_pos rfl] at hok
        injection hok with h2; subst h2; rfl
      | false =>
        rw [if_neg (by simp)] at hok
        injection hok with h2; subst h2; rfl
  | false =>
    rw [if_neg (by simp)] at hok
    generalize (decide ((lt.splitOn "store --file").length ≥ 2) : Bool) = b3 at hok
    cases b3 with
    | true =>
      rw [if_pos rfl] at hok
      generalize ((lt.splitOn " ").filter (fun w => w ≠ "")).getLast? = r at hok
      cases r with
      | none => cases hok
      | some storeFileName =>
        dsimp only at hok
        generalize (h.isFile (h.resolve storeFileName) : Bool) = b4 at hok
        cases b4 with
        | true =>
          rw [if_pos rfl] at hok
          injection hok with h2; subst h2; rfl
        | false =>
          rw [if_neg (by simp)] at hok
          injection hok with h2; subst h2; rfl
    | false =>
      rw [if_neg (by simp)] at hok
      injection hok with h2; subst h2; rfl

/-- Frame preservation through a fallible fold. -/
theorem foldlM_except_frame {σ α β : Type} (g : σ → β)
    (f : σ → α → Except String σ) (l : List α)
    (hf : ∀ s x, x ∈ l → ∀ s', f s x = .ok s' → g s' = g s)
    (s s' : σ) (h : l.foldlM f s = .ok s') : g s' = g s := by
  induction l generalizing s with
  | nil =>
    injection h with h2
    rw [h2]
  | cons x t ih =>
    rw [List.foldlM_cons] at h
    cases hx : f s x with
    | error er =>
      rw [hx] at h
      cases h
    | ok s2 =>
      rw [hx] at h
      have h3 : t.foldlM f s2 = .ok s' := h
      have ih2 := ih (fun s x hx => hf s x (List.mem_cons_of_mem _ hx)) s2 h3
      rw [ih2]
      exact hf s x (List.mem_cons_self _ _) s2 hx

theorem gitCap_frame (a : Bool) (h : Host) (e e' : Env)
    (hok : gitCap a h e = .ok e') : frameProj e' = frameProj e := by
  unfold gitCap at hok
  dsimp only at hok
  split at hok
  · split at hok
    · have h2 := foldlM_except_frame frameProj (gitCapLine h) _
        (fun s x _ s' hs => gitCapLine_frame h s x s' hs) _ _ hok
      rw [h2]
      rfl
    · injection hok with h2; subst h2; rfl
  · injection hok with h2; subst h2; rfl

/-- Every catalogue entry preserves name, command and args. -/
theorem capEntry_frame_all (c : String × (Bool → Host → Env → Except String Env))
    (hc : c ∈ Capabilities) (a : Bool) (host : Host) (e e' : Env)
    (hok : c.2 a host e = .ok e') : frameProjNCA e' = frameProjNCA e := by
  fin_cases hc <;>
  · dsimp only at hok
    first
    | (injection hok with h2; subst h2;
       first
       | exact rootCap_frame _ _
       | exact frameProj_to_NCA (manageImageCap_frame _ _)
       | exact frameProj_to_NCA (privilegedCap_frame _ _)
       | exact frameProj_to_NCA (terminalCap_frame _ _)
       | exact frameProj_to_NCA (ipcCap_frame _ _)
       | exact frameProj_to_NCA (editorCap_frame _ _ _)
       | exact frameProj_to_NCA (webcamCap_frame _ _ _)
       | exact frameProj_to_NCA (driCap_frame _ _)
       | exact frameProj_to_NCA (kvmCap_frame _ _)
       | exact frameProj_to_NCA (tunCap_frame _ _)
       | exact frameProj_to_NCA (seccompCap_frame _ _)
       | exact frameProj_to_NCA (selinuxCap_frame _ _)
       | exact frameProj_to_NCA (setuidCap_frame _ _)
       | exact frameProj_to_NCA (ptraceCap_frame _ _)
       | exact frameProj_to_NCA (networkCap_frame _ _)
       | exact frameProj_to_NCA (mountCwdCap_frame _ _)
       | exact frameProj_to_NCA (mountCacheCap_frame _ _)
       | exact frameProj_to_NCA (autoUpdateCap_frame _ _)
       | exact frameProj_to_NCA (uidmapCap_frame _ _))
    | exact frameProj_to_NCA (x11Cap_frame _ _ _ _ hok)
    | exact frameProj_to_NCA (pulseaudioCap_frame _ _ _ _ hok)
    | exact frameProj_to_NCA (gitCap_frame _ _ _ _ hok)
    | exact frameProj_to_NCA (sshCap_frame _ _ _ _ hok)
    | exact frameProj_to_NCA (gpgCap_frame _ _ _ _ hok)
    | exact frameProj_to_NCA (mountRunCap_frame _ _ _ hok)

/-- Every catalogue entry after the first two preserves name, command,
args, and the context's home and xdgDir. -/
theorem capEntry_frame_tail (c : String × (Bool → Host → Env → Except String Env))
    (hc : c ∈ Capabilities.drop 2) (a : Bool) (host : Host) (e e' : Env)
    (hok : c.2 a host e = .ok e') : frameProj e' = frameProj e := by
  fin_cases hc <;>
  · dsimp only at hok
    first
    | (injection hok with h2; subst h2;
       first
       | exact privilegedCap_frame _ _
       | exact terminalCap_frame _ _
       | exact ipcCap_frame _ _
       | exact editorCap_frame _ _ _
       | exact webcamCap_frame _ _ _
       | exact driCap_frame _ _
       | exact kvmCap_frame _ _
       | exact tunCap_frame _ _
       | exact seccompCap_frame _ _
       | exact selinuxCap_frame _ _
       | exact setuidCap_frame _ _
       | exact ptraceCap_frame _ _
       | exact networkCap_frame _ _
       | exact mountCwdCap_frame _ _
       | exact mountCacheCap_frame _ _
       | exact autoUpdateCap_frame _ _
       | exact uidmapCap_frame _ _)
    | exact x11Cap_frame _ _ _ _ hok
    | exact pulseaudioCap_frame _ _ _ _ hok
    | exact gitCap_frame _ _ _ _ hok
    | exact sshCap_frame _ _ _ _ hok
    | exact gpgCap_frame _ _ _ _ hok
    | exact mountRunCap_frame _ _ _ hok

/-- The whole pipeline preserves name, command and args. -/
theorem applyCapabilities_frame (host : Host) (e e' : Env)
    (h : applyCapabilities host e = .ok e') : frameProjNCA e' = frameProjNCA e :=
  foldlM_except_frame frameProjNCA _ Capabilities
    (fun s c hc s' hs => capEntry_frame_all c hc _ host s s' hs) e e' h

/-- Any list of post-identity catalogue entries preserves `frameProj`. -/
theorem applyCapList_frame_tail (host : Host)
    (l : List (String × (Bool → Host → Env → Except String Env)))
    (hl : ∀ c ∈ l, c ∈ Capabilities.drop 2) (e e' : Env)
    (h : applyCapList host l e = .ok e') : frameProj e' = frameProj e :=
  foldlM_except_frame frameProj _ l
    (fun s c hc s' hs => capEntry_frame_tail c (hl c hc) _ host s s' hs) e e' h

/-- The first two catalogue steps: manage-image then the identity handler. -/
theorem applyCapList_take2 (host : Host) (env : Env) :
    applyCapList host (Capabilities.take 2) env =
      .ok (rootCap (capGet env.capabilities "root")
        (manageImageCap (capGet env.capabilities "manage-image") env)) := rfl

theorem rootCap_sets (b : Bool) (e : Env) :
    (rootCap b e).ctx.home = (if b then "/root" else "/home/user")
    ∧ (rootCap b e).ctx.xdgDir = (if b then "/run/user/0" else "/run/user/1000") := by
  cases b <;> exact ⟨rfl, rfl⟩

/-- An environment with no declared capabilities, for the C4 counterexample. -/
def envC4 : Env := { name := "c4" }

/-- Claim C4 counterexample: the first catalogue entry is `manage-image`,
not the identity-setting handler; after only the first entry has run, the
context's home and xdgRuntimeDir still hold the unset default. -/
theorem C4_first_not_identity :
    (Capabilities.map Prod.fst).head? ≠ some "root"
    ∧ (Capabilities.map Prod.fst).head? = some "manage-image"
    ∧ ((applyCapList host0 (Capabilities.take 1) envC4).toOption.map
        (fun e => (e.ctx.home, e.ctx.xdgDir))) = some (".", ".") := by
  refine ⟨by decide, by decide, by decide⟩

/-- Running any catalogue prefix of length at least two pins home and
xdgDir to the identity handler's choice. -/
theorem pipeline_home_spec (host : Host) (env : Env) (k : Nat) (env' : Env)
    (hk : 2 ≤ k)
    (h : applyCapList host (Capabilities.take k) env = .ok env') :
    env'.ctx.home =
        (if capGet env.capabilities "root" then "/root" else "/home/user")
    ∧ env'.ctx.xdgDir =
        (if capGet env.capabilities "root" then "/run/user/0" else "/run/user/1000") := by
  have hsplit : Capabilities.take k
      = Capabilities.take 2 ++ (Capabilities.drop 2).take (k - 2) := by
    rw [show k = 2 + (k - 2) by omega, List.take_add]
    simp
  rw [hsplit] at h
  unfold applyCapList at h
  rw [List.foldlM_append] at h
  have h2 := applyCapList_take2 host env
  unfold applyCapList at h2
  rw [h2] at h
  have h3 : applyCapList host ((Capabilities.drop 2).take (k - 2))
      (rootCap (capGet env.capabilities "root")
        (manageImageCap (capGet env.capabilities "manage-image") env)) = .ok env' := h
  have hframe := applyCapList_frame_tail host _
    (fun c hc => List.take_subset _ _ hc) _ env' h3
  have hhome : env'.ctx.home =
      (rootCap (capGet env.capabilities "root")
        (manageImageCap (capGet env.capabilities "manage-image") env)).ctx.home :=
    congrArg (fun t => t.2.2.2.1) hframe
  have hxdg : env'.ctx.xdgDir =
      (rootCap (capGet env.capabilities "root")
        (manageImageCap (capGet env.capabilities "manage-image") env)).ctx.xdgDir :=
    congrArg (fun t => t.2.2.2.2) hframe
  rw [hhome, hxdg, (rootCap_sets _ _).1, (rootCap_sets _ _).2]
  exact ⟨rfl, rfl⟩

/-- Claim C4, amended: the identity-setting handler is second in catalogue
order, directly after `manage-image` (which touches neither home nor
xdgRuntimeDir); consequently, after any prefix of the catalogue of length
at least two has run, the context's home and xdgRuntimeDir are set to the
values the identity handler chose, and no later handler changes them. -/
theorem C4_identity_runs_second (host : Host) (env : Env) (k : Nat) (env' : Env)
    (hk : 2 ≤ k)
    (h : applyCapList host (Capabilities.take k) env = .ok env') :
    (Capabilities.map Prod.fst).take 2 = ["manage-image", "root"]
    ∧ env'.ctx.home =
        (if capGet env.capabilities "root" then "/root" else "/home/user")
    ∧ env'.ctx.xdgDir =
        (if capGet env.capabilities "root" then "/run/user/0" else "/run/user/1000") :=
  ⟨by decide, pipeline_home_spec host env k env' hk h⟩

/-- An environment with the root capability, for the C4 witness. -/
def envW4 : Env := { name := "w4", capabilities := [("root", true)] }

/-- Witness for the amended C4 theorem: the full 25-entry catalogue run on
a root-capable environment ends with home `/root` and xdgDir `/run/user/0`. -/
theorem C4_identity_runs_second_witness :
    (Capabilities.map Prod.fst).take 2 = ["manage-image", "root"]
    ∧ ((applyCapList host0 (Capabilities.take 25) envW4).toOption.map
        (fun e => (e.ctx.home, e.ctx.xdgDir))) = some ("/root", "/run/user/0") := by
  cases hh : applyCapList host0 (Capabilities.take 25) envW4 with
  | error er =>
    have hne : (applyCapList host0 (Capabilities.take 25) envW4).toOption ≠ none := by
      decide
    rw [hh] at hne
    exact absurd rfl hne
  | ok env' =>
    have h := C4_identity_runs_second host0 envW4 25 env' (by omega) hh
    refine ⟨h.1, ?_⟩
    have hroot : capGet envW4.capabilities "root" = true := by decide
    have h1 := h.2.1
    have h2 := h.2.2
    rw [hroot] at h1 h2
    simp only [if_pos rfl] at h1 h2
    simp [Except.toOption, h1, h2]

/-- Claim C5: compilation is deterministic — two compilations of the same
environment, CLI arguments and host snapshot produce the same
`(name, runtimeArgs, commandArgs)` result (in particular the same mount,
environ and syscap flag order, which the embedding fixes as a function of
the input rather than of any hidden state). -/
theorem C5_deterministic (host : Host) (env : Env) (cliArgs : List String)
    (r1 r2 : Except String ((String × List String × List String) × Env × List String))
    (h1 : prepareEnv host env cliArgs = r1) (h2 : prepareEnv host env cliArgs = r2) :
    r1 = r2 := h1.symm.trans h2

/-- An environment for the C5 witness. -/
def envW5 : Env := { name := "w5", command := ["sh"] }

/-- Witness for C5 at a concrete environment. -/
theorem C5_deterministic_witness :
    prepareEnv host0 envW5 ["x"] = prepareEnv host0 envW5 ["x"] :=
  C5_deterministic host0 envW5 ["x"] _ _ rfl rfl

theorem checkSelinuxSockets_frame (p : Env × List String) :
    frameProj (checkSelinuxSockets p).1 = frameProj p.1 := by
  unfold checkSelinuxSockets
  split_ifs
  · simp only [List.foldl_cons, List.foldl_nil]
    split_ifs <;> rfl
  · rfl

theorem checkUidPermissions_frame (p : Env × List String) :
    frameProj (checkUidPermissions p).1 = frameProj p.1 := by
  unfold checkUidPermissions
  split_ifs
  · split <;> rfl
  · rfl

theorem checkSysCapabilities_frame (p : Env × List String) :
    frameProj (checkSysCapabilities p).1 = frameProj p.1 := by
  unfold checkSysCapabilities
  split_ifs <;> rfl

/-- Frame preservation through a plain fold over warning-accumulating
environment pairs. -/
theorem foldl_pair_frame {α β : Type} (g : Env → α)
    (f : Env × List String → β → Env × List String)
    (hf : ∀ q x, g (f q x).1 = g q.1) (l : List β) (q : Env × List String) :
    g (l.foldl f q).1 = g q.1 := by
  induction l generalizing q with
  | nil => rfl
  | cons x t ih => rw [List.foldl_cons, ih, hf]

theorem checkMountLabels_frame (host : Host) (p : Env × List String) :
    frameProj (checkMountLabels host p).1 = frameProj p.1 := by
  unfold checkMountLabels
  split_ifs
  · apply foldl_pair_frame
    intro q x
    dsimp only
    split_ifs <;> rfl
  · rfl

theorem checkMountPermissions_frame (host : Host) (p : Env × List String) :
    frameProj (checkMountPermissions host p).1 = frameProj p.1 := rfl

theorem checkHomeMount_frame (p p' : Env × List String)
    (h : checkHomeMount p = .ok p') : frameProj p'.1 = frameProj p.1 := by
  unfold checkHomeMount at h
  split at h
  · cases hrun : mountRunCap true p.1 with
    | error er => rw [hrun] at h; cases h
    | ok env2 =>
      rw [hrun] at h
      injection h with h2
      rw [← h2]
      exact mountRunCap_frame true p.1 env2 hrun
  · injection h with h2
    rw [← h2]

theorem checkImageManagement_frame (p : Env × List String) :
    frameProj (checkImageManagement p).1 = frameProj p.1 := by
  unfold checkImageManagement
  dsimp only
  split_ifs <;> rfl

/-- The validator preserves name, command, args, home and xdgDir. -/
theorem validateEnv_frame (host : Host) (e e2 : Env) (w : List String)
    (h : validateEnv host e = .ok (e2, w)) : frameProj e2 = frameProj e := by
  unfold validateEnv at h
  cases hh : checkHomeMount (checkMountPermissions host (checkMountLabels host
      (checkSysCapabilities (checkUidPermissions (checkSelinuxSockets (e, [])))))) with
  | error er => rw [hh] at h; cases h
  | ok p =>
    rw [hh] at h
    injection h with h3
    have f7 : frameProj (checkImageManagement p).1 = frameProj p.1 :=
      checkImageManagement_frame p
    rw [h3] at f7
    have f6 := checkHomeMount_frame _ _ hh
    rw [f7, f6, checkMountPermissions_frame, checkMountLabels_frame,
      checkSysCapabilities_frame, checkUidPermissions_frame, checkSelinuxSockets_frame]


theorem mergeHomeMount_frame (host : Host) (e : Env) :
    frameProj (mergeHomeMount host e) = frameProj e := by
  unfold mergeHomeMount
  dsimp only
  split_ifs <;> rfl

theorem mergeResidual_frame (host : Host) (e : Env) :
    frameProj (mergeResidual host e) = frameProj e := rfl

theorem userNsStep_frame (e : Env) :
    frameProj (userNsStep e) = frameProj e := by
  unfold userNsStep
  dsimp only
  split_ifs <;> rfl

theorem fileArgStep_spec (host : Host) (e : Env) (cliArgs : List String)
    (fa : Option String) (cl : List String) (e' : Env)
    (h : fileArgStep host e cliArgs = .ok (fa, cl, e')) :
    frameProj e' = frameProj e
    ∧ (e.command.contains "$1" = false → fa = none ∧ cl = cliArgs ∧ e' = e)
    ∧ (e.command.contains "$1" = true → cl = cliArgs.dropLast ∧ cliArgs.length ≤ 1)
    ∧ (∀ rf, fa = some rf →
        dictGet e'.ctx.mounts (pathJoin "/tmp" (baseName rf)) = some rf)
    ∧ (e.command.contains "$1" = true →
        ∀ f, cliArgs.getLast? = some f → fa = host.resolveStrict f) := by
  unfold fileArgStep at h
  split at h
  · rename_i hcond
    split at h
    · cases h
    · rename_i hlen
      cases hlast : cliArgs.getLast? with
      | none =>
        rw [hlast] at h
        dsimp only at h
        injection h with h2
        injection h2 with h2a h2b
        injection h2b with h2b h2c
        subst h2a; subst h2b; subst h2c
        have hnil : cliArgs = [] := by
          cases cliArgs with
          | nil => rfl
          | cons x t => simp [List.getLast?_concat] at hlast
        refine ⟨rfl, ?_, ?_, ?_, ?_⟩
        · intro hcf; rw [hcond] at hcf; cases hcf
        · intro _; subst hnil; exact ⟨rfl, by omega⟩
        · intro rf hrf; cases hrf
        · intro _ f hf; cases hf
      | some f =>
        rw [hlast] at h
        dsimp only at h
        cases hres : host.resolveStrict f with
        | none => rw [hres] at h; cases h
        | some rf =>
          rw [hres] at h
          dsimp only at h
          injection h with h2
          injection h2 with h2a h2b
          injection h2b with h2b h2c
          subst h2a; subst h2b; subst h2c
          refine ⟨rfl, ?_, ?_, ?_, ?_⟩
          · intro hcf; rw [hcond] at hcf; cases hcf
          · intro _; exact ⟨rfl, by omega⟩
          · intro rf2 hrf
            injection hrf with hrf
            subst hrf
            simp [dictGet_dictInsert]
          · intro _ f2 hf2
            injection hf2 with hf2
            rw [← hf2]
            exact hres.symm
  · rename_i hcond
    injection h with h2
    injection h2 with h2a h2b
    injection h2b with h2b h2c
    subst h2a; subst h2b; subst h2c
    have hcf : e.command.contains "$1" = false := by
      cases hc : e.command.contains "$1" with
      | false => rfl
      | true => exact absurd hc hcond
    refine ⟨rfl, fun _ => ⟨rfl, rfl, rfl⟩, ?_, ?_, ?_⟩
    · intro hct; rw [hcf] at hct; cases hct
    · intro rf hrf; cases hrf
    · intro hct; rw [hcf] at hct; cases hct

/-- Claim C10, amended: the argument compiler is deterministic but not
pure: it returns the triple together with an updated Environment and an
updated CLI list. The Environment's name, command and args fields are
never changed (the mutations hit the ExecutionContext and the
image-management fields), the emitted container name is the environment's
name, and the CLI list comes back unchanged when the command template has
no `$1` token but loses its single trailing file argument when it has one. -/
theorem C10_effects (host : Host) (env0 : Env) (cliArgs0 : List String)
    (r : (String × List String × List String) × Env × List String)
    (h : prepareEnv host env0 cliArgs0 = .ok r) :
    r.2.1.name = env0.name ∧ r.2.1.command = env0.command ∧ r.2.1.args = env0.args
    ∧ (env0.command.contains "$1" = false → r.2.2 = cliArgs0)
    ∧ (env0.command.contains "$1" = true →
        r.2.2 = cliArgs0.dropLast ∧ cliArgs0.length ≤ 1)
    ∧ r.1.1 = env0.name := by
  unfold prepareEnv at h
  cases hpipe : applyCapabilities host env0 with
  | error er => rw [hpipe] at h; cases h
  | ok env1 =>
    rw [hpipe] at h
    have hnca := applyCapabilities_frame host env0 env1 hpipe
    dsimp only at h
    split at h
    · cases h
    · rename_i portArgs heqp
      split at h
      · cases h
      · rename_i fa cl env3 heqf
        split at h
        · cases h
        · rename_i env4 w heqv
          injection h with hbig
          have hspec := fileArgStep_spec host _ cliArgs0 fa cl env3 heqf
          have hv := validateEnv_frame host env3 env4 w heqv
          have hchain : frameProj env4 = frameProj (mergeHomeMount host env1) := by
            rw [hv, hspec.1, mergeResidual_frame]
          have hun : frameProj (userNsStep env4) = frameProj env4 := userNsStep_frame env4
          have hname4 : (userNsStep env4).name = env0.name := by
            have h1 := congrArg (fun t => t.1) hun
            have h2 := congrArg (fun t => t.1) hchain
            have h3 := congrArg (fun t => t.1) (mergeHomeMount_frame host env1)
            have h4 := congrArg (fun t => t.1) hnca
            exact (h1.trans (h2.trans (h3.trans h4)))
          have hcmd4 : (userNsStep env4).command = env0.command := by
            have h1 := congrArg (fun t => t.2.1) hun
            have h2 := congrArg (fun t => t.2.1) hchain
            have h3 := congrArg (fun t => t.2.1) (mergeHomeMount_frame host env1)
            have h4 := congrArg (fun t => t.2.1) hnca
            exact (h1.trans (h2.trans (h3.trans h4)))
          have hargs4 : (userNsStep env4).args = env0.args := by
            have h1 := congrArg (fun t => t.2.2.1) hun
            have h2 := congrArg (fun t => t.2.2.1) hchain
            have h3 := congrArg (fun t => t.2.2.1) (mergeHomeMount_frame host env1)
            have h4 := congrArg (fun t => t.2.2) hnca
            exact (h1.trans (h2.trans (h3.trans h4)))
          have hcmd3 : (mergeResidual host (mergeHomeMount host env1)).command
              = env0.command := by
            have h2 := congrArg (fun t => t.2.1) (mergeResidual_frame host (mergeHomeMount host env1))
            have h3 := congrArg (fun t => t.2.1) (mergeHomeMount_frame host env1)
            have h4 := congrArg (fun t => t.2.1) hnca
            exact (h2.trans (h3.trans h4))
          rw [← hbig]
          refine ⟨hname4, hcmd4, hargs4, ?_, ?_, hname4⟩
          · intro hc
            rw [← hcmd3] at hc
            exact ((hspec.2.1 hc).2.1).symm ▸ rfl
          · intro hc
            rw [← hcmd3] at hc
            have := hspec.2.2.1 hc
            exact ⟨this.1, this.2⟩

/-- An environment whose compilation pops the CLI argument and rewrites
the context, for the C10 counterexample. -/
def envC10 : Env := { name := "c10", command := ["$1"] }

/-- Claim C10 counterexample: the compiler is not pure — on a concrete
input it returns the environment with a rewritten ExecutionContext (cwd
changed from the unset default to the home directory) and a CLI-argument
list from which the file argument has been popped. -/
theorem C10_not_pure :
    (prepareEnv host0 envC10 ["/etc/hosts"]).toOption.map
        (fun r => (r.2.1.ctx.cwd, r.2.1.ctx.home, r.2.2))
      = some ("/home/user", "/home/user", [])
    ∧ envC10.ctx.cwd = "." ∧ envC10.ctx.home = "." := by
  exact ⟨by decide, by decide, by decide⟩

/-- An environment for the C10 witness. -/
def envW10 : Env := { name := "w10", command := ["run", "$1"], args := ["-v"] }

/-- Witness for the amended C10 theorem at a concrete input. -/
theorem C10_effects_witness :
    (prepareEnv host0 envW10 ["/etc/hosts"]).toOption.map
      (fun r => (r.2.1.name, r.2.1.command, r.2.1.args, r.2.2, r.1.1)) =
      some (envW10.name, envW10.command, envW10.args, [], envW10.name) := by
  cases hh : prepareEnv host0 envW10 ["/etc/hosts"] with
  | error er =>
    have hne : (prepareEnv host0 envW10 ["/etc/hosts"]).toOption ≠ none := by decide
    rw [hh] at hne
    exact absurd rfl hne
  | ok r =>
    have h := C10_effects host0 envW10 ["/etc/hosts"] r hh
    have hc : envW10.command.contains "$1" = true := by decide
    have h5 := h.2.2.2.2.1 hc
    simp [Except.toOption, h.1, h.2.1, h.2.2.1, h5.1, h.2.2.2.2.2]

theorem checkSelinuxSockets_mounts (p : Env × List String) :
    (checkSelinuxSockets p).1.ctx.mounts = p.1.ctx.mounts := by
  unfold checkSelinuxSockets
  split_ifs
  · simp only [List.foldl_cons, List.foldl_nil]
    split_ifs <;> rfl
  · rfl

theorem checkUidPermissions_mounts (p : Env × List String) :
    (checkUidPermissions p).1.ctx.mounts = p.1.ctx.mounts := by
  unfold checkUidPermissions
  split_ifs
  · split <;> rfl
  · rfl

theorem checkSysCapabilities_mounts (p : Env × List String) :
    (checkSysCapabilities p).1.ctx.mounts = p.1.ctx.mounts := by
  unfold checkSysCapabilities
  split_ifs <;> rfl

theorem checkMountLabels_mounts (host : Host) (p : Env × List String) :
    (checkMountLabels host p).1.ctx.mounts = p.1.ctx.mounts := by
  unfold checkMountLabels
  split_ifs
  · apply foldl_pair_frame (fun e => e.ctx.mounts)
    intro q x
    dsimp only
    split_ifs <;> rfl
  · rfl

theorem checkMountPermissions_mounts (host : Host) (p : Env × List String) :
    (checkMountPermissions host p).1.ctx.mounts = p.1.ctx.mounts := rfl

theorem checkImageManagement_mounts (p : Env × List String) :
    (checkImageManagement p).1.ctx.mounts = p.1.ctx.mounts := by
  unfold checkImageManagement
  dsimp only
  split_ifs <;> rfl

theorem checkHomeMount_get (p p' : Env × List String)
    (h : checkHomeMount p = .ok p') (k : String)
    (hk1 : k ≠ p.1.ctx.home) (hk2 : k ≠ "/tmp") :
    dictGet p'.1.ctx.mounts k = dictGet p.1.ctx.mounts k := by
  unfold checkHomeMount at h
  split at h
  · cases hrun : mountRunCap true p.1 with
    | error er => rw [hrun] at h; cases h
    | ok env2 =>
      rw [hrun] at h
      injection h with h2
      rw [← h2]
      dsimp only
      unfold mountRunCap at hrun
      rw [if_pos rfl] at hrun
      cases hrd : p.1.runDir with
      | none => rw [hrd] at hrun; cases hrun
      | some rd =>
        rw [hrd] at hrun
        dsimp only at hrun
        injection hrun with h3
        rw [← h3]
        dsimp only
        split_ifs <;>
          simp [dictGet_dictInsert, hk1, hk2]
  · injection h with h2
    rw [← h2]

/-- Validator mount lookups away from the context home and `/tmp` are
unchanged (only the forced mount-run correction inserts mounts, at those
two keys). -/
theorem validateEnv_mounts_get (host : Host) (e e2 : Env) (w : List String)
    (h : validateEnv host e = .ok (e2, w)) (k : String)
    (hk1 : k ≠ e.ctx.home) (hk2 : k ≠ "/tmp") :
    dictGet e2.ctx.mounts k = dictGet e.ctx.mounts k := by
  unfold validateEnv at h
  cases hh : checkHomeMount (checkMountPermissions host (checkMountLabels host
      (checkSysCapabilities (checkUidPermissions (checkSelinuxSockets (e, [])))))) with
  | error er => rw [hh] at h; cases h
  | ok p =>
    rw [hh] at h
    injection h with h3
    have hm5 : (checkMountPermissions host (checkMountLabels host
        (checkSysCapabilities (checkUidPermissions
          (checkSelinuxSockets (e, [])))))).1.ctx.mounts = e.ctx.mounts := by
      rw [checkMountPermissions_mounts, checkMountLabels_mounts,
        checkSysCapabilities_mounts, checkUidPermissions_mounts, checkSelinuxSockets_mounts]
    have hh5 : (checkMountPermissions host (checkMountLabels host
        (checkSysCapabilities (checkUidPermissions
          (checkSelinuxSockets (e, [])))))).1.ctx.home = e.ctx.home := by
      have f5 := checkMountPermissions_frame host (checkMountLabels host
        (checkSysCapabilities (checkUidPermissions (checkSelinuxSockets (e, [])))))
      have f4 := checkMountLabels_frame host
        (checkSysCapabilities (checkUidPermissions (checkSelinuxSockets (e, []))))
      have f3 := checkSysCapabilities_frame (checkUidPermissions (checkSelinuxSockets (e, [])))
      have f2 := checkUidPermissions_frame (checkSelinuxSockets (e, []))
      have f1 := checkSelinuxSockets_frame (e, [])
      have := (congrArg (fun t => t.2.2.2.1) f5).trans
        ((congrArg (fun t => t.2.2.2.1) f4).trans
          ((congrArg (fun t => t.2.2.2.1) f3).trans
            ((congrArg (fun t => t.2.2.2.1) f2).trans
              (congrArg (fun t => t.2.2.2.1) f1))))
      exact this
    have h6 := checkHomeMount_get _ _ hh k (by rw [hh5]; exact hk1) hk2
    have h7 : e2 = (checkImageManagement p).1 := by rw [h3]
    rw [h7, checkImageManagement_mounts, h6, hm5]

theorem userNsStep_mounts (e : Env) :
    (userNsStep e).ctx.mounts = e.ctx.mounts := by
  unfold userNsStep
  dsimp only
  split_ifs <;> rfl

theorem getArgs_ctx_mounts (host : Host) (c : ExecContext) :
    ((getArgs host c).2).mounts = c.mounts := by
  unfold getArgs
  dsimp only
  split_ifs <;> rfl

theorem slashTmp_ne_tmp (b : String) : ("/tmp/" ++ b) ≠ "/tmp" := by
  intro h
  have h2 := congrArg String.data h
  rw [String.data_append] at h2
  simp at h2

theorem slashTmp_ne_root (b : String) : ("/tmp/" ++ b) ≠ "/root" := by
  intro h
  have h2 := congrArg String.data h
  rw [String.data_append] at h2
  simp at h2

theorem slashTmp_ne_homeUser (b : String) : ("/tmp/" ++ b) ≠ "/home/user" := by
  intro h
  have h2 := congrArg String.data h
  rw [String.data_append] at h2
  simp at h2

theorem pathJoin_tmp (b : String) (hb : b.data.head? ≠ some (Char.ofNat 47)) :
    pathJoin "/tmp" b = "/tmp/" ++ b := by
  unfold pathJoin
  rw [if_neg hb]
  exact congrArg (fun s => s ++ b) (rfl : ("/tmp" : String) ++ "/" = "/tmp/")

/-- Command rendering with a resolved file argument and an emptied CLI
list: every `$1` token becomes the `/tmp` path, and the declared args are
appended unless the result is a bare `/bin/bash`. -/
theorem renderCommandArgs_file (env : Env) (rf : String) :
    renderCommandArgs env (some rf) [] =
      (if (env.command.map (fun c => if c = "$1" then "/tmp/" ++ baseName rf else c)) = []
         ∨ (env.command.map (fun c => if c = "$1" then "/tmp/" ++ baseName rf else c)).getLast?
            ≠ some "/bin/bash"
       then (env.command.map (fun c => if c = "$1" then "/tmp/" ++ baseName rf else c)) ++ env.args
       else (env.command.map (fun c => if c = "$1" then "/tmp/" ++ baseName rf else c))) := by
  unfold renderCommandArgs
  have hfold : ∀ (l acc : List String),
      l.foldl (fun acc c =>
        if c = "$@" ∧ ([] : List String) ≠ [] then acc ++ ([] : List String)
        else if c = "$1" ∧ (some rf).isSome then acc ++ ["/tmp/" ++ baseName ((some rf).getD "")]
        else acc ++ [c]) acc
      = acc ++ l.map (fun c => if c = "$1" then "/tmp/" ++ baseName rf else c) := by
    intro l
    induction l with
    | nil => intro acc; simp
    | cons x t ih =>
      intro acc
      rw [List.foldl_cons, ih]
      by_cases hx : x = "$1" <;> simp [hx]
  rw [hfold]
  simp

/-- Claim C7: with a `$1` token in the command template, more than one
positional CLI argument means compilation never produces an argument
vector (the configuration error aborts it), while exactly one CLI argument
`f` that resolves to `rf` yields a compilation whose final mounts map the
container path `/tmp/<basename rf>` to `rf`, whose returned CLI list is
emptied, and whose commandArgs are the template with every `$1` replaced
by `/tmp/<basename rf>` (followed by the declared args unless the rendered
command is a bare `/bin/bash`). A basename never starts with a slash (it
is a slash-free path component); the embedding takes that as a
hypothesis on `rf`. -/
theorem C7_file_argument (host : Host) (env0 : Env) (cliArgs0 : List String)
    (hc : env0.command.contains "$1" = true) :
    (cliArgs0.length > 1 → ∀ r, prepareEnv host env0 cliArgs0 ≠ .ok r)
    ∧ (∀ f rf r, cliArgs0 = [f] → host.resolveStrict f = some rf →
        (baseName rf).data.head? ≠ some (Char.ofNat 47) →
        prepareEnv host env0 cliArgs0 = .ok r →
        dictGet r.2.1.ctx.mounts ("/tmp/" ++ baseName rf) = some rf
        ∧ r.2.2 = []
        ∧ r.1.2.2 =
            (if (env0.command.map (fun c => if c = "$1" then "/tmp/" ++ baseName rf else c)) = []
               ∨ (env0.command.map
                    (fun c => if c = "$1" then "/tmp/" ++ baseName rf else c)).getLast?
                  ≠ some "/bin/bash"
             then (env0.command.map (fun c => if c = "$1" then "/tmp/" ++ baseName rf else c))
                    ++ env0.args
             else (env0.command.map
                    (fun c => if c = "$1" then "/tmp/" ++ baseName rf else c)))) := by
  constructor
  · intro hlen r hok
    unfold prepareEnv at hok
    cases hpipe : applyCapabilities host env0 with
    | error er => rw [hpipe] at hok; cases hok
    | ok env1 =>
      rw [hpipe] at hok
      have hnca := applyCapabilities_frame host env0 env1 hpipe
      dsimp only at hok
      split at hok
      · cases hok
      · split at hok
        · cases hok
        · rename_i fa cl env3 heqf
          have hspec := fileArgStep_spec host _ cliArgs0 fa cl env3 heqf
          have hcmd2 : (mergeResidual host (mergeHomeMount host env1)).command
              = env0.command := by
            have h2 := congrArg (fun t => t.2.1)
              (mergeResidual_frame host (mergeHomeMount host env1))
            have h3 := congrArg (fun t => t.2.1) (mergeHomeMount_frame host env1)
            have h4 := congrArg (fun t => t.2.1) hnca
            exact h2.trans (h3.trans h4)
          have h5 := hspec.2.2.1 (by rw [hcmd2]; exact hc)
          omega
  · intro f rf r hcli hres hbs hok
    unfold prepareEnv at hok
    cases hpipe : applyCapabilities host env0 with
    | error er => rw [hpipe] at hok; cases hok
    | ok env1 =>
      rw [hpipe] at hok
      have hnca := applyCapabilities_frame host env0 env1 hpipe
      dsimp only at hok
      split at hok
      · cases hok
      · rename_i portArgs heqp
        split at hok
        · cases hok
        · rename_i fa cl env3 heqf
          split at hok
          · cases hok
          · rename_i env4 w heqv
            injection hok with hbig
            have hspec := fileArgStep_spec host _ cliArgs0 fa cl env3 heqf
            have hcmd2 : (mergeResidual host (mergeHomeMount host env1)).command
                = env0.command := by
              have h2 := congrArg (fun t => t.2.1)
                (mergeResidual_frame host (mergeHomeMount host env1))
              have h3 := congrArg (fun t => t.2.1) (mergeHomeMount_frame host env1)
              have h4 := congrArg (fun t => t.2.1) hnca
              exact h2.trans (h3.trans h4)
            have hargs2 : (mergeResidual host (mergeHomeMount host env1)).args
                = env0.args := by
              have h2 := congrArg (fun t => t.2.2.1)
                (mergeResidual_frame host (mergeHomeMount host env1))
              have h3 := congrArg (fun t => t.2.2.1) (mergeHomeMount_frame host env1)
              have h4 := congrArg (fun t => t.2.2) hnca
              exact h2.trans (h3.trans h4)
            have hcontains2 : (mergeResidual host (mergeHomeMount host env1)).command.contains
                "$1" = true := by rw [hcmd2]; exact hc
            have hfa : fa = some rf := by
              have hlast : cliArgs0.getLast? = some f := by rw [hcli]; rfl
              have := hspec.2.2.2.2 hcontains2 f hlast
              rw [this, hres]
            have hcl : cl = [] := by
              have := (hspec.2.2.1 hcontains2).1
              rw [hcli] at this
              simpa using this
            have hm3 := hspec.2.2.2.1 rf hfa
            rw [pathJoin_tmp _ hbs] at hm3
            have hpipe2 : applyCapList host (Capabilities.take 25) env0 = .ok env1 := by
              exact hpipe
            have hhome1 := (pipeline_home_spec host env0 25 env1 (by omega) hpipe2).1
            have hhome3 : env3.ctx.home = env1.ctx.home := by
              have h1 := congrArg (fun t => t.2.2.2.1) hspec.1
              have h2 := congrArg (fun t => t.2.2.2.1)
                (mergeResidual_frame host (mergeHomeMount host env1))
              have h3 := congrArg (fun t => t.2.2.2.1) (mergeHomeMount_frame host env1)
              exact h1.trans (h2.trans h3)
            have hne1 : ("/tmp/" ++ baseName rf) ≠ env3.ctx.home := by
              rw [hhome3, hhome1]
              by_cases hb : capGet env0.capabilities "root" = true
              · rw [if_pos hb]
                exact slashTmp_ne_root _
              · rw [if_neg hb]
                exact slashTmp_ne_homeUser _
            have hv := validateEnv_mounts_get host env3 env4 w heqv _ hne1
              (slashTmp_ne_tmp _)
            have hc3 : env3.command = env0.command :=
              (congrArg (fun t => t.2.1) hspec.1).trans hcmd2
            have ha3 : env3.args = env0.args :=
              (congrArg (fun t => t.2.2.1) hspec.1).trans hargs2
            rw [← hbig]
            refine ⟨?_, hcl, ?_⟩
            · dsimp only
              rw [getArgs_ctx_mounts, userNsStep_mounts, hv, hm3]
            · dsimp only
              rw [hfa, hcl, renderCommandArgs_file, hc3, ha3]

/-- An environment with a `$1` template, for the C7 witness. -/
def envW7 : Env := { name := "w7", command := ["$1"] }

/-- Witness for C7: two CLI arguments abort the compilation; one CLI
argument is mounted at `/tmp/hostname` and substituted into commandArgs. -/
theorem C7_file_argument_witness :
    (prepareEnv host0 envW7 ["/a", "/b"]).toOption = none
    ∧ (prepareEnv host0 envW7 ["/etc/hostname"]).toOption.map
        (fun r => (dictGet r.2.1.ctx.mounts "/tmp/hostname", r.2.2, r.1.2.2))
      = some (some "/etc/hostname", [], ["/tmp/hostname"]) := by
  constructor
  · cases hh : prepareEnv host0 envW7 ["/a", "/b"] with
    | error er => rfl
    | ok r =>
      exact absurd hh
        ((C7_file_argument host0 envW7 ["/a", "/b"] (by decide)).1 (by decide) r)
  · cases hh : prepareEnv host0 envW7 ["/etc/hostname"] with
    | error er =>
      have hne : (prepareEnv host0 envW7 ["/etc/hostname"]).toOption ≠ none := by decide
      rw [hh] at hne
      exact absurd rfl hne
    | ok r =>
      have h := (C7_file_argument host0 envW7 ["/etc/hostname"] (by decide)).2
        "/etc/hostname" "/etc/hostname" r rfl rfl (by decide) hh
      have h1 := h.1
      rw [show ("/tmp/" ++ baseName "/etc/hostname") = "/tmp/hostname" by decide] at h1
      have h3 := h.2.2
      rw [show (Except.ok r : Except String
          ((String × List String × List String) × Env × List String)).toOption
        = some r from rfl, Option.map_some', h1, h.2.1, h3]
      decide

/-- The selinux-socket downgrade rule cannot fire: selinux off, or none of
the three socket capabilities requested. -/
def rule1Off (caps : List (String × Bool)) : Prop :=
  capGet caps "selinux" = false
  ∨ (capGet caps "x11" = false ∧ capGet caps "tun" = false
     ∧ capGet caps "pulseaudio" = false)

/-- The forced-uidmap rule cannot fire: root or uidmap already requested,
or none of the four host-file capabilities requested. -/
def rule2Off (caps : List (String × Bool)) : Prop :=
  capGet caps "root" = true ∨ capGet caps "uidmap" = true
  ∨ (capGet caps "x11" = false ∧ capGet caps "pulseaudio" = false
     ∧ capGet caps "ssh" = false ∧ capGet caps "gpg" = false)

/-- The NET_ADMIN rule cannot fire: tun off, or NET_ADMIN already granted. -/
def rule3Off (e : Env) : Prop :=
  capGet e.capabilities "tun" = false ∨ e.ctx.syscaps.contains "NET_ADMIN" = true

/-- The image-management rule cannot fire. -/
def rule7Off (e : Env) : Prop :=
  e.manageImage = true
  ∨ (e.packages = [] ∧ e.imageCustomizations = [] ∧ e.imageTasks = [])

theorem selinuxCap_caps (a : Bool) (e : Env) :
    (selinuxCap a e).capabilities = e.capabilities := by
  unfold selinuxCap
  split_ifs <;> rfl

theorem checkSelinuxSockets_off (p : Env × List String)
    (h : rule1Off p.1.capabilities) : checkSelinuxSockets p = p := by
  unfold checkSelinuxSockets
  rcases h with h | ⟨h1, h2, h3⟩
  · rw [if_neg (by simp [h])]
  · split_ifs with hs
    · simp only [List.foldl_cons, List.foldl_nil]
      simp [h1, h2, h3]
    · rfl

theorem checkSelinuxSockets_after (p : Env × List String) :
    rule1Off (checkSelinuxSockets p).1.capabilities := by
  unfold checkSelinuxSockets
  split_ifs with hs
  · simp only [List.foldl_cons, List.foldl_nil]
    split_ifs <;>
      first
      | (left; simp [capGet, dictGet_dictInsert, selinuxCap_caps]; done)
      | (right; refine ⟨?_, ?_, ?_⟩ <;> simp_all)
  · left
    simpa using hs

theorem checkSelinuxSockets_capGet_ne (p : Env × List String) (c : String)
    (hc : c ≠ "selinux") :
    capGet (checkSelinuxSockets p).1.capabilities c = capGet p.1.capabilities c := by
  unfold checkSelinuxSockets
  split_ifs
  · simp only [List.foldl_cons, List.foldl_nil]
    split_ifs <;> simp [capGet, dictGet_dictInsert, selinuxCap_caps, hc]
  · rfl

theorem checkSelinuxSockets_overlays (p : Env × List String) :
    (checkSelinuxSockets p).1.overlays = p.1.overlays := by
  unfold checkSelinuxSockets
  split_ifs
  · simp only [List.foldl_cons, List.foldl_nil]
    split_ifs <;> rfl
  · rfl

theorem rule2Off_congr {caps caps' : List (String × Bool)}
    (h : ∀ c, c ≠ "selinux" → capGet caps' c = capGet caps c)
    (hr : rule2Off caps) : rule2Off caps' := by
  rcases hr with hr | hr | ⟨h1, h2, h3, h4⟩
  · exact Or.inl (by rw [h "root" (by decide)]; exact hr)
  · exact Or.inr (Or.inl (by rw [h "uidmap" (by decide)]; exact hr))
  · exact Or.inr (Or.inr ⟨by rw [h "x11" (by decide)]; exact h1,
      by rw [h "pulseaudio" (by decide)]; exact h2,
      by rw [h "ssh" (by decide)]; exact h3,
      by rw [h "gpg" (by decide)]; exact h4⟩)

theorem checkUidPermissions_off (p : Env × List String)
    (h : rule2Off p.1.capabilities) : checkUidPermissions p = p := by
  unfold checkUidPermissions
  rcases h with h | h | ⟨h1, h2, h3, h4⟩
  · rw [if_neg]
    intro hh
    exact hh.1 h
  · rw [if_neg]
    intro hh
    exact hh.2 h
  · split_ifs with hcond
    · have hfind : List.find? (fun c => capGet p.1.capabilities c)
          ["x11", "pulseaudio", "ssh", "gpg"] = none := by
        simp [List.find?, h1, h2, h3, h4]
      rw [hfind]
    · rfl

theorem checkUidPermissions_caps (p : Env × List String) :
    (checkUidPermissions p).1.capabilities = p.1.capabilities := by
  unfold checkUidPermissions
  split_ifs
  · split <;> rfl
  · rfl

theorem checkUidPermissions_overlays (p : Env × List String) :
    (checkUidPermissions p).1.overlays = p.1.overlays := by
  unfold checkUidPermissions
  split_ifs
  · split <;> rfl
  · rfl

theorem checkSysCapabilities_off (p : Env × List String)
    (h : rule3Off p.1) : checkSysCapabilities p = p := by
  unfold checkSysCapabilities
  rcases h with h | h
  · rw [if_neg]
    intro hh
    rw [h] at hh
    exact Bool.false_ne_true hh.1
  · rw [if_neg]
    intro hh
    exact hh.2 h

theorem checkSysCapabilities_after (p : Env × List String) :
    rule3Off (checkSysCapabilities p).1 := by
  unfold checkSysCapabilities
  split_ifs with hc
  · right
    simp
  · by_cases ht : capGet p.1.capabilities "tun" = true
    · right
      by_cases hn : p.1.ctx.syscaps.contains "NET_ADMIN" = true
      · exact hn
      · exact absurd ⟨ht, hn⟩ hc
    · left
      simpa using ht

theorem checkSysCapabilities_caps (p : Env × List String) :
    (checkSysCapabilities p).1.capabilities = p.1.capabilities := by
  unfold checkSysCapabilities
  split_ifs <;> rfl

theorem checkSysCapabilities_overlays (p : Env × List String) :
    (checkSysCapabilities p).1.overlays = p.1.overlays := by
  unfold checkSysCapabilities
  split_ifs <;> rfl

theorem checkMountLabels_off (host : Host) (p : Env × List String)
    (hsel : host.hasSelinux = false) : checkMountLabels host p = p := by
  unfold checkMountLabels
  rw [hsel]
  simp

theorem checkMountPermissions_off (host : Host) (p : Env × List String)
    (hread : ∀ q, host.readable q = true) : checkMountPermissions host p = p := by
  unfold checkMountPermissions
  have hnil : p.1.ctx.mounts.filterMap (fun m =>
      let hostPath := host.resolve m.2
      if host.pathExists hostPath ∧ ¬ host.readable hostPath then
        some (hostPath ++ " is not readable by the current user.")
      else none) = [] := by
    rw [List.filterMap_eq_nil]
    intro m hm
    simp [hread]
  rw [hnil]
  simp

theorem checkHomeMount_off (p : Env × List String)
    (hov : p.1.overlays = []) : checkHomeMount p = .ok p := by
  unfold checkHomeMount
  rw [if_neg]
  intro hh
  exact hh.1 hov

theorem checkImageManagement_off (p : Env × List String)
    (h : rule7Off p.1) : checkImageManagement p = p := by
  unfold checkImageManagement
  rcases h with h | ⟨h1, h2, h3⟩
  · rw [if_neg (by simp [h])]
  · by_cases hm : ¬ p.1.manageImage = true
    · rw [if_pos hm]
      dsimp only
      rw [if_neg (show ¬ p.1.packages ≠ [] from fun hh => hh h1)]
      rw [if_neg (show ¬ (p.1.imageCustomizations ≠ [] ∨ p.1.imageTasks ≠ []) by
        intro hh
        rcases hh with hh | hh
        · exact hh h2
        · exact hh h3)]
    · rw [if_neg hm]

theorem checkImageManagement_after (p : Env × List String) :
    rule7Off (checkImageManagement p).1 := by
  unfold checkImageManagement
  by_cases hm : ¬ p.1.manageImage = true
  · rw [if_pos hm]
    dsimp only
    split_ifs <;>
      first
      | exact Or.inl rfl
      | (rename_i h1 h2
         push_neg at h1 h2
         exact Or.inr ⟨h1, h2.1, h2.2⟩)
  · rw [if_neg hm]
    left
    simpa using hm

theorem checkImageManagement_caps (p : Env × List String) :
    (checkImageManagement p).1.capabilities = p.1.capabilities := by
  unfold checkImageManagement
  dsimp only
  split_ifs <;> rfl

theorem checkImageManagement_ctx (p : Env × List String) :
    (checkImageManagement p).1.ctx = p.1.ctx := by
  unfold checkImageManagement
  dsimp only
  split_ifs <;> rfl

theorem checkImageManagement_overlays (p : Env × List String) :
    (checkImageManagement p).1.overlays = p.1.overlays := by
  unfold checkImageManagement
  dsimp only
  split_ifs <;> rfl

def envC1 : Env := { name := "c1", capabilities := [("x11", true)] }

def envWC1 : Env :=
  { name := "wc1", capabilities := [("selinux", true), ("tun", true)],
    packages := ["git"] }

/-- C1 counterexample: the forced uid-map correction is not re-entrant.
On an environment requesting only x11, the first validator run emits the
uid-map warning; running the validator again on the returned environment
emits the very same warning a second time and changes the environment
again (uidmapCap appends its runtime arguments once more), because the
correction calls uidmapCap without recording a `uidmap` capability. -/
theorem C1_not_reentrant :
    ((validateEnv host0 envC1).toOption.bind (fun p =>
      (validateEnv host0 p.1).toOption.map (fun q =>
        (p.2, q.2, decide (q.1 = p.1))))) =
    some (["UIDMap is required because x11 need DAC access to the host file"],
      ["UIDMap is required because x11 need DAC access to the host file"],
      false) := by
  decide

/-- C1 (amended): every validator correction other than the forced uid-map
is re-entrant. If the forced uid-map rule cannot fire (root or uidmap
already requested, or no capability needing DAC host access), the
environment has no overlays, the host has no SELinux and all host paths
are readable, then running the validator a second time on the environment
returned by a first successful run returns that environment unchanged and
emits no warning. -/
theorem C1_validator_reentrant (host : Host) (env env1 : Env) (w1 : List String)
    (hsel : host.hasSelinux = false)
    (hread : ∀ q, host.readable q = true)
    (hover : env.overlays = [])
    (huid : rule2Off env.capabilities)
    (h1 : validateEnv host env = .ok (env1, w1)) :
    validateEnv host env1 = .ok (env1, []) := by
  have hcapsP1 : ∀ c, c ≠ "selinux" →
      capGet (checkSelinuxSockets (env, ([] : List String))).1.capabilities c
        = capGet env.capabilities c :=
    fun c hc => checkSelinuxSockets_capGet_ne (env, []) c hc
  have h2id : checkUidPermissions (checkSelinuxSockets (env, ([] : List String)))
      = checkSelinuxSockets (env, []) :=
    checkUidPermissions_off _ (rule2Off_congr hcapsP1 huid)
  have hovP3 : (checkSysCapabilities (checkSelinuxSockets
      (env, ([] : List String)))).1.overlays = [] := by
    rw [checkSysCapabilities_overlays, checkSelinuxSockets_overlays]
    exact hover
  have hrun1 : validateEnv host env = .ok (checkImageManagement
      (checkSysCapabilities (checkSelinuxSockets (env, [])))) := by
    unfold validateEnv
    rw [h2id, checkMountLabels_off host _ hsel,
      checkMountPermissions_off host _ hread, checkHomeMount_off _ hovP3]
  have hpair : (env1, w1) = checkImageManagement
      (checkSysCapabilities (checkSelinuxSockets (env, []))) := by
    rw [hrun1] at h1
    exact (Except.ok.inj h1).symm
  have henv1 : env1 = (checkImageManagement
      (checkSysCapabilities (checkSelinuxSockets (env, [])))).1 := by
    rw [← hpair]
  have hcapsE1 : env1.capabilities
      = (checkSelinuxSockets (env, ([] : List String))).1.capabilities := by
    rw [henv1, checkImageManagement_caps, checkSysCapabilities_caps]
  have hctxE1 : env1.ctx = (checkSysCapabilities
      (checkSelinuxSockets (env, ([] : List String)))).1.ctx := by
    rw [henv1, checkImageManagement_ctx]
  have hovE1 : env1.overlays = [] := by
    rw [henv1, checkImageManagement_overlays]
    exact hovP3
  have hr1 : rule1Off env1.capabilities := by
    rw [hcapsE1]
    exact checkSelinuxSockets_after (env, [])
  have hr2 : rule2Off env1.capabilities := by
    rw [hcapsE1]
    exact rule2Off_congr hcapsP1 huid
  have hr3 : rule3Off env1 := by
    rcases checkSysCapabilities_after (checkSelinuxSockets (env, [])) with h3 | h3
    · left
      rw [hcapsE1]
      rw [checkSysCapabilities_caps] at h3
      exact h3
    · right
      rw [hctxE1]
      exact h3
  have hr7 : rule7Off env1 := by
    rw [henv1]
    exact checkImageManagement_after _
  have r1 : checkSelinuxSockets (env1, ([] : List String)) = (env1, []) :=
    checkSelinuxSockets_off _ hr1
  have r2 : checkUidPermissions (env1, ([] : List String)) = (env1, []) :=
    checkUidPermissions_off _ hr2
  have r3 : checkSysCapabilities (env1, ([] : List String)) = (env1, []) :=
    checkSysCapabilities_off _ hr3
  unfold validateEnv
  rw [r1, r2, r3, checkMountLabels_off host _ hsel,
    checkMountPermissions_off host _ hread, checkHomeMount_off _ hovE1]
  dsimp only
  rw [checkImageManagement_off (env1, []) hr7]

/-- C1 amended witness: on a host without SELinux and an environment whose
corrections are the isolation downgrade, the NET_ADMIN addition and the
forced image management, a second validator run is silent and unchanged. -/
theorem C1_validator_reentrant_witness :
    ((validateEnv host0 envWC1).toOption.bind (fun p =>
      (validateEnv host0 p.1).toOption.map (fun q =>
        (decide (q.1 = p.1), q.2)))) = some (true, []) := by
  cases hh : validateEnv host0 envWC1 with
  | error e =>
    have hok : (validateEnv host0 envWC1).toOption.isSome = true := by decide
    rw [hh] at hok
    simp [Except.toOption] at hok
  | ok p =>
    obtain ⟨e1, w1⟩ := p
    have h2 := C1_validator_reentrant host0 envWC1 e1 w1 rfl (fun q => rfl) rfl
      (Or.inr (Or.inr ⟨rfl, rfl, rfl, rfl⟩)) hh
    have h3 : (validateEnv host0 e1).toOption = some (e1, []) := by
      rw [h2]
      rfl
    rw [show (Except.ok (e1, w1) : Except String (Env × List String)).toOption
      = some (e1, w1) from rfl]
    simp [h3]
